import Mathlib

/-!
Verification of the concurrent crawl scheduler of `src/main.py` (class `WebCrawler`).

The development shallowly embeds the crawler: pure helpers (`_is_valid_url`,
`_is_downloadable_file`, `_extract_links`, `_can_fetch`, filename derivation) become Lean
functions; the mutable crawler attributes (`visited_urls`, `queued_urls`, `downloaded_files`,
`saved_pages`, `to_visit`, `pages_crawled`) become fields of an explicit state record; the
network, the filesystem writes and the robots document are an oracle (`World`); Python
exceptions become `Except` values threaded through the code's `try`/`except` structure, with
the state at the raise point carried along (Python mutations persist across a raise).

The asyncio execution of `WebCrawler.crawl` is modelled as a labelled transition system.
The `crawl` coroutine's inner dispatch `while` loop is synchronous Python (no `await`), so it
is one atomic step; a created task first runs the synchronous prefix of `_fetch_page`
(validity check, `visited` insert, `pages_crawled` increment) up to the `session.get` await,
and on completion of that await runs the remainder.  The remainder's own awaits (saving a
matching page, the per-file downloads) only touch `saved_pages`/`downloaded_files`/the
filesystem, which no other task reads in a way the verified properties depend on, so the
remainder is modelled as a second atomic step; the per-page downloads are modelled in
`asyncio.gather` list order.  The semaphore of `controlled_fetch` is not modelled: the task
list is already bounded by `max_concurrent` at dispatch, so the semaphore never blocks.
A ghost `log` field records fetch starts, download network attempts and enqueues; it is
instrumentation only and is read by no crawler code.
-/

/-! ## String and URL helpers (model of the used parts of `urllib.parse` / `os.path`) -/

/-- Lowercase a string character by character (model of Python `str.lower`). -/
def strToLower (s : String) : String := ⟨s.data.map Char.toLower⟩

/-- Model of Python `str.endswith`: the final characters of `s` equal `suffix`. -/
def strEndsWith (s suffix : String) : Bool :=
  decide (s.data.drop (s.data.length - suffix.data.length) = suffix.data)

/-- `urldefrag(url)[0]`: everything before the first `#`. -/
def urldefrag (u : String) : String := ⟨u.data.takeWhile (fun ch => ch ≠ '#')⟩

/-- Components of a parsed URL, as used by the crawler. -/
structure UrlParts where
  scheme : String
  netloc : String
  path : String
deriving DecidableEq

/-- Characters allowed in a URL scheme after the leading letter. -/
def isSchemeChar (ch : Char) : Bool := ch.isAlphanum || ch = '+' || ch = '-' || ch = '.'

/-- Scan for `scheme:`; returns the scheme body and the remainder after the colon. -/
def takeSchemeAux : List Char → Option (List Char × List Char)
  | [] => none
  | ch :: cs =>
    if ch = ':' then some ([], cs)
    else if isSchemeChar ch then
      match takeSchemeAux cs with
      | some (s, r) => some (ch :: s, r)
      | none => none
    else none

/-- Split off a leading `scheme:` when present (first character must be a letter). -/
def splitScheme (l : List Char) : List Char × List Char :=
  match l with
  | ch :: _ =>
    if ch.isAlpha then
      match takeSchemeAux l with
      | some (s, r) => (s, r)
      | none => ([], l)
    else ([], l)
  | [] => ([], l)

/-- A character terminating the netloc component. -/
def isNetlocEnd (ch : Char) : Bool := ch = '/' || ch = '?' || ch = '#'

/-- Split off a leading `//netloc` when present. -/
def splitNetloc (l : List Char) : List Char × List Char :=
  match l with
  | '/' :: '/' :: rest => (rest.takeWhile (fun ch => !isNetlocEnd ch),
                           rest.dropWhile (fun ch => !isNetlocEnd ch))
  | _ => ([], l)

/-- Model of `urllib.parse.urlparse` restricted to the fields the crawler reads
(`scheme`, `netloc`, `path`).  The fragment is split off first, as `urlsplit` does, so no
component ever contains fragment text. -/
def parseUrl (url : String) : UrlParts :=
  let l := url.data.takeWhile (fun ch => ch ≠ '#')
  let (sch, rest) := splitScheme l
  let (nl, rest2) := splitNetloc rest
  let path := rest2.takeWhile (fun ch => ch ≠ '?')
  { scheme := ⟨sch.map Char.toLower⟩, netloc := ⟨nl⟩, path := ⟨path⟩ }

/-- `os.path.basename`: the part of a path after the last `/`. -/
def basename (p : String) : String := ⟨(p.data.reverse.takeWhile (fun ch => ch ≠ '/')).reverse⟩

/-- `path.split('/')[-1]`: same final segment as `basename`. -/
def lastSegment (p : String) : String := basename p

/-- Model of `urllib.parse.urljoin`, simplified: an absolute reference (with a scheme) is
returned unchanged; scheme-relative and host-relative references are resolved against the
base's scheme/netloc; anything else is appended to the base's directory.  Every URL the
verified properties inspect goes through the absolute branch. -/
def urljoin (base link : String) : String :=
  if (parseUrl link).scheme ≠ "" then link
  else if link.startsWith "//" then (parseUrl base).scheme ++ ":" ++ link
  else if link.startsWith "/" then
    (parseUrl base).scheme ++ "://" ++ (parseUrl base).netloc ++ link
  else
    ⟨(base.data.reverse.dropWhile (fun ch => ch ≠ '/')).reverse⟩ ++ link

/-- Python `str.strip(ch)`: drop the character from both ends. -/
def stripChar (ch : Char) (s : String) : String :=
  ⟨((s.data.dropWhile (fun c => c = ch)).reverse.dropWhile (fun c => c = ch)).reverse⟩

theorem urldefrag_idem (u : String) : urldefrag (urldefrag u) = urldefrag u := by
  simp [urldefrag, List.takeWhile_idem]

theorem parseUrl_urldefrag (u : String) : parseUrl (urldefrag u) = parseUrl u := by
  simp [parseUrl, urldefrag, List.takeWhile_idem]

/-! ## Data model -/

/-- An HTML tag as seen by `_extract_links`: its name and its `href`/`src` attributes. -/
structure Tag where
  name : String
  href : Option String
  src : Option String
deriving DecidableEq

/-- A fetched page: its decoded text (for the content pattern) and its parsed tags
(the BeautifulSoup result, treated as an external parser). -/
structure Page where
  text : String
  tags : List Tag

/-- The error taxonomy of the exceptions the crawler handles:
`asyncio.TimeoutError`, `aiohttp.ClientError` (including `raise_for_status`), storage
errors, and any other `Exception`. -/
inductive PyErr where
  | timeoutError
  | clientError
  | storageError
  | otherError
deriving DecidableEq

/-- Ghost instrumentation events: a page fetch started (`session.get` issued inside
`_fetch_page`), a file download network attempt (`session.get` issued inside
`_download_file`), a pair appended to `to_visit`. -/
inductive Event where
  | fetchStart (url : String) (depth : Nat)
  | downloadAttempt (url : String)
  | enq (url : String)
deriving DecidableEq

/-- The mutable attributes of a `WebCrawler` instance, plus the filesystem contents
(paths that exist) and the ghost event log. -/
structure CrawlerState where
  visited : List String
  queued : List String
  downloadedFiles : List String
  savedPages : List String
  toVisit : List (String × Nat)
  pagesCrawled : Nat
  fs : List String
  log : List Event
deriving DecidableEq

/-- The immutable attributes of a `WebCrawler` set in `__init__`.  The compiled content
pattern is an abstract predicate on the decoded body (`None` when absent or when
compilation failed); the robots parser is an abstract permission function whose `none`
result on a URL models `can_fetch` raising. -/
structure Crawler where
  startUrl : String
  fileExtensions : List String
  maxDepth : Nat
  maxPages : Nat
  stayOnDomain : Bool
  respectRobots : Bool
  maxConcurrent : Nat
  downloadAllFiles : Bool
  contentPattern : Option (String → Bool)
  robotParser : Option (String → Option Bool)

/-- The environment: network responses for page fetches and file downloads, storage
outcomes, and the robots document load outcome.  A file download has four outcome points
in the source's order: `fileNet` is `session.get` + `raise_for_status` (connection,
headers, HTTP status — before anything touches storage), `fileOpen` is
`aiofiles.open(filepath, 'wb')` (which creates the destination file when it succeeds),
`fileRead` is `await response.read()` (the body transfer, which can fail after the file
exists), and `fileWrite` is `await f.write(...)`. -/
structure World where
  pageResult : String → Except PyErr Page
  fileNet : String → Except PyErr Unit
  fileOpen : String → Except PyErr Unit
  fileRead : String → Except PyErr Unit
  fileWrite : String → Except PyErr Unit
  robotsRead : String → Except PyErr (String → Option Bool)

/-- `self.start_domain = urlparse(start_url).netloc`. -/
def startDomain (c : Crawler) : String := (parseUrl c.startUrl).netloc

/-- The `robots.txt` URL built by `_setup_robots_parser`. -/
def robotsUrl (startUrl : String) : String :=
  (parseUrl startUrl).scheme ++ "://" ++ (parseUrl startUrl).netloc ++ "/robots.txt"

/-- `_setup_robots_parser`: reading the robots document; on any exception the parser is
left as `None` (with a warning log line). -/
def setupRobotsParser (w : World) (startUrl : String) : Option (String → Option Bool) :=
  match w.robotsRead (robotsUrl startUrl) with
  | .ok f => some f
  | .error _ => none

/-- `WebCrawler.__init__`: lowercases the extension list, compiles the pattern (already
abstract here), and sets up the robots parser only when `respect_robots` is set. -/
def mkCrawler (startUrl : String) (fileExtensions : List String) (maxDepth maxPages : Nat)
    (stayOnDomain respectRobots : Bool) (maxConcurrent : Nat)
    (contentPattern : Option (String → Bool)) (downloadAllFiles : Bool) (w : World) :
    Crawler :=
  { startUrl := startUrl
    fileExtensions := fileExtensions.map strToLower
    maxDepth := maxDepth
    maxPages := maxPages
    stayOnDomain := stayOnDomain
    respectRobots := respectRobots
    maxConcurrent := maxConcurrent
    downloadAllFiles := downloadAllFiles
    contentPattern := contentPattern
    robotParser := if respectRobots then setupRobotsParser w startUrl else none }

/-- The initial mutable state from `__init__`: the seed is placed on `to_visit` with depth 0
and added to `queued_urls` (without fragment stripping). -/
def initState (startUrl : String) : CrawlerState :=
  { visited := []
    queued := [startUrl]
    downloadedFiles := []
    savedPages := []
    toVisit := [(startUrl, 0)]
    pagesCrawled := 0
    fs := []
    log := [Event.enq startUrl] }

/-! ## Crawler operations -/

/-- `_can_fetch`: `True` when no parser is set; a raise inside `can_fetch` (modelled by the
parser returning `none`) is caught and also yields `True`. -/
def canFetch (c : Crawler) (url : String) : Bool :=
  match c.robotParser with
  | none => true
  | some f =>
    match f url with
    | some b => b
    | none => true

/-- `_is_valid_url`: fragment strip, then the early-return chain of checks. -/
def isValidUrl (c : Crawler) (st : CrawlerState) (url : String) (currentDepth : Nat) : Bool :=
  let u := urldefrag url
  if u ∈ st.visited then false
  else if currentDepth > c.maxDepth then false
  else if c.stayOnDomain ∧ (parseUrl u).netloc ≠ startDomain c then false
  else if ¬ canFetch c u then false
  else if (parseUrl u).scheme ≠ "http" ∧ (parseUrl u).scheme ≠ "https" then false
  else true

/-- `_is_downloadable_file`: in download-all mode, any URL whose path's last segment
contains a dot; otherwise a case-insensitive `str.endswith` test of the configured
extensions against the whole URL string. -/
def isDownloadableFile (c : Crawler) (url : String) : Bool :=
  if c.downloadAllFiles then
    let path := (parseUrl url).path
    path ≠ "" ∧ '.' ∈ (lastSegment path).data
  else
    let urlLower := strToLower url
    c.fileExtensions.any (fun ext => strEndsWith urlLower ext)

/-- `tag.get('href') or tag.get('src')`, with Python truthiness (an empty string falls
through), followed by the `if not link: continue` test. -/
def getLink (t : Tag) : Option String :=
  let link := match t.href with
    | some s => if s = "" then t.src else some s
    | none => t.src
  match link with
  | some s => if s = "" then none else some s
  | none => none

/-- The tag names scanned by `soup.find_all`. -/
def linkTagNames : List String := ["a", "img", "source", "video", "audio"]

/-- The loop body of `_extract_links` over the found tags, in document order. -/
def extractLinksAux (c : Crawler) (st : CrawlerState) (baseUrl : String) :
    List Tag → List String × List String
  | [] => ([], [])
  | t :: ts =>
    let rest := extractLinksAux c st baseUrl ts
    if t.name ∈ linkTagNames then
      match getLink t with
      | some link =>
        let absoluteUrl := urljoin baseUrl link
        if isDownloadableFile c absoluteUrl then
          if absoluteUrl ∈ st.downloadedFiles then rest
          else (absoluteUrl :: rest.1, rest.2)
        else if t.name = "a" then (rest.1, absoluteUrl :: rest.2)
        else rest
      | none => rest
    else rest

/-- `_extract_links`: returns `(file_urls, page_urls)`.  Reads `self.downloaded_files`
through `st`. -/
def extractLinks (c : Crawler) (st : CrawlerState) (tags : List Tag) (baseUrl : String) :
    List String × List String :=
  extractLinksAux c st baseUrl tags

/-- The filename computed by `_download_file`, with the synthesized
`file_<n><ext>` fallback for an empty basename. -/
def downloadFileName (c : Crawler) (st : CrawlerState) (url : String) : String :=
  let filename := basename (parseUrl url).path
  if filename = "" then
    let ext := match c.fileExtensions with
      | e :: _ => e
      | [] => ".bin"
    "file_" ++ toString st.downloadedFiles.length ++ ext
  else filename

/-- The `try` body of `_download_file`, in the source's event order.  A raise carries the
state at the raise point (Python mutations persist across exceptions): `session.get` +
`raise_for_status` fail before storage is touched, but `aiofiles.open(filepath, 'wb')`
creates the destination file before `response.read()` runs, so a body-read or write
failure leaves the (empty or partial) file on disk.  The URL joins `downloaded_files`
only after a successful write. -/
def downloadFileBody (c : Crawler) (w : World) (outputDir : String) (st : CrawlerState)
    (url : String) : Except (PyErr × CrawlerState) (Bool × CrawlerState) :=
  let filename := downloadFileName c st url
  let filepath := outputDir ++ "/" ++ filename
  if filepath ∈ st.fs ∨ url ∈ st.downloadedFiles then .ok (false, st)
  else
    let st1 : CrawlerState := { st with log := st.log ++ [Event.downloadAttempt url] }
    match w.fileNet url with
    | .error e => .error (e, st1)
    | .ok _ =>
      match w.fileOpen filepath with
      | .error e => .error (e, st1)
      | .ok _ =>
        let st2 : CrawlerState := { st1 with fs := filepath :: st1.fs }
        match w.fileRead url with
        | .error e => .error (e, st2)
        | .ok _ =>
          match w.fileWrite filepath with
          | .error e => .error (e, st2)
          | .ok _ => .ok (true, { st2 with downloadedFiles := url :: st2.downloadedFiles })

/-- `_download_file`: the body under `except Exception`, which catches every error kind and
returns `False`. -/
def downloadFile (c : Crawler) (w : World) (outputDir : String) (st : CrawlerState)
    (url : String) : Bool × CrawlerState :=
  match downloadFileBody c w outputDir st url with
  | .ok r => r
  | .error (_, s) => (false, s)

/-- The saved-page filename of `_save_matching_page`. -/
def savePageName (url : String) : String :=
  let filename := stripChar '_' (((parseUrl url).path).replace "/" "_")
  let filename := if filename = "" then "index" else filename
  filename ++ ".html"

/-- The `try` body of `_save_matching_page`. -/
def saveMatchingPageBody (w : World) (outputDir : String) (st : CrawlerState)
    (url : String) : Except (PyErr × CrawlerState) (Bool × CrawlerState) :=
  let pagesDir := outputDir ++ "/matching_pages"
  let filepath := pagesDir ++ "/" ++ savePageName url
  if url ∈ st.savedPages ∨ filepath ∈ st.fs then .ok (false, st)
  else
    match w.fileWrite filepath with
    | .error e => .error (e, st)
    | .ok _ => .ok (true, { st with fs := filepath :: st.fs,
                                    savedPages := url :: st.savedPages })

/-- `_save_matching_page`: body under its own `except Exception`. -/
def saveMatchingPage (w : World) (outputDir : String) (st : CrawlerState) (url : String) :
    CrawlerState :=
  match saveMatchingPageBody w outputDir st url with
  | .ok r => r.2
  | .error (_, s) => s

/-- One iteration of the enqueue loop at the end of `_fetch_page`: fragment strip, the
check against `visited_urls` and `queued_urls`, and on acceptance the append to
`to_visit` and insert into `queued_urls`. -/
def enqueueOne (st : CrawlerState) (depth : Nat) (pageUrl : String) : CrawlerState :=
  let p := urldefrag pageUrl
  if p ∈ st.visited ∨ p ∈ st.queued then st
  else { st with toVisit := st.toVisit ++ [(p, depth + 1)],
                 queued := p :: st.queued,
                 log := st.log ++ [Event.enq p] }

/-- The enqueue loop over all page candidates. -/
def enqueueAll (depth : Nat) : CrawlerState → List String → CrawlerState
  | st, [] => st
  | st, u :: us => enqueueAll depth (enqueueOne st depth u) us

/-- The `asyncio.gather` over `_download_file` tasks, in list order. -/
def downloadAll (c : Crawler) (w : World) (outputDir : String) :
    CrawlerState → List String → CrawlerState
  | st, [] => st
  | st, u :: us => downloadAll c w outputDir (downloadFile c w outputDir st u).2 us

/-- The synchronous prefix of `_fetch_page`, run when the task first executes: the validity
re-check; on validity the insert into `visited_urls` (of the unstripped URL), the
`pages_crawled` increment, and the start of the page fetch (ghost `fetchStart` event).
`none` means the task returned without fetching. -/
def fetchPageStart (c : Crawler) (st : CrawlerState) (url : String) (depth : Nat) :
    Option CrawlerState :=
  if isValidUrl c st url depth then
    some { st with visited := url :: st.visited,
                   pagesCrawled := st.pagesCrawled + 1,
                   log := st.log ++ [Event.fetchStart url depth] }
  else none

/-- The content-pattern block of `_fetch_page`: when a pattern is configured and matches
the decoded body, the page is saved (the inner `try` around the decode is subsumed: the
abstract pattern and text are total). -/
def patternCheck (c : Crawler) (w : World) (outputDir : String) (st : CrawlerState)
    (url : String) (page : Page) : CrawlerState :=
  match c.contentPattern with
  | none => st
  | some pat => if pat page.text then saveMatchingPage w outputDir st url else st

/-- The successful-fetch path of `_fetch_page`: pattern check and save, link extraction,
the download gather, and the depth-guarded enqueue loop. -/
def processPage (c : Crawler) (w : World) (outputDir : String) (st : CrawlerState)
    (url : String) (depth : Nat) (page : Page) : CrawlerState :=
  let st2 := patternCheck c w outputDir st url page
  let extracted := extractLinks c st2 page.tags url
  let st3 := downloadAll c w outputDir st2 extracted.1
  if depth < c.maxDepth then enqueueAll depth st3 extracted.2 else st3

/-- The `try` body of `_fetch_page` after the fetch was issued.  The only raise that
reaches this `try` is the fetch itself (the pattern check, the save and each download all
catch their own exceptions), and it happens before any mutation of this block. -/
def fetchPageBody (c : Crawler) (w : World) (outputDir : String) (st : CrawlerState)
    (url : String) (depth : Nat) : Except (PyErr × CrawlerState) CrawlerState :=
  match w.pageResult url with
  | .error e => .error (e, st)
  | .ok page => .ok (processPage c w outputDir st url depth page)

/-- The `except` clauses of `_fetch_page`: `asyncio.TimeoutError`, `aiohttp.ClientError`,
then the catch-all `Exception`; each only prints and returns, keeping the state at the
raise point. -/
def handleFetchErr (p : PyErr × CrawlerState) : CrawlerState :=
  match p.1 with
  | .timeoutError => p.2
  | .clientError => p.2
  | .storageError => p.2
  | .otherError => p.2

/-- The remainder of `_fetch_page` after the fetch await, with its exception handling. -/
def fetchPageRest (c : Crawler) (w : World) (outputDir : String) (st : CrawlerState)
    (url : String) (depth : Nat) : CrawlerState :=
  match fetchPageBody c w outputDir st url depth with
  | .ok s => s
  | .error p => handleFetchErr p

/-- The statistics dictionary returned by `crawl`:
`(pages_crawled, files_downloaded, pages_saved)`. -/
def crawlStats (st : CrawlerState) : Nat × Nat × Nat :=
  (st.pagesCrawled, st.downloadedFiles.length, st.savedPages.length)

/-! ## The asyncio scheduler of `WebCrawler.crawl` as a transition system -/

/-- A task created by `asyncio.create_task(controlled_fetch(url, depth))`:
not yet executed, suspended in its page fetch, or completed. -/
inductive TaskState where
  | created (url : String) (depth : Nat)
  | inFlight (url : String) (depth : Nat)
  | done
deriving DecidableEq

/-- Where the `crawl` coroutine itself is: at the top of the outer `while` (about to
re-test its condition), suspended in `asyncio.wait`, or past the loop (tasks it abandoned
may still run while the session closes). -/
inductive Mode where
  | dispatching
  | waiting
  | finished
deriving DecidableEq

/-- The whole system: crawler state, the `tasks` list of the loop, and the coroutine mode. -/
structure SysState where
  st : CrawlerState
  tasks : List TaskState
  mode : Mode
deriving DecidableEq

/-- The inner dispatch `while` of `crawl`, which is synchronous Python: it pops the queue
front and appends a created task while the queue is non-empty, the task list is below
`max_concurrent` and `pages_crawled` is below `max_pages`.  `pagesCrawled` is a fixed
argument because no task runs (hence no increment happens) during this loop. -/
def dispatchLoopAux (c : Crawler) (pagesCrawled : Nat) :
    List (String × Nat) → List TaskState → List (String × Nat) × List TaskState
  | [], tasks => ([], tasks)
  | (url, depth) :: rest, tasks =>
    if tasks.length < c.maxConcurrent ∧ pagesCrawled < c.maxPages then
      dispatchLoopAux c pagesCrawled rest (tasks ++ [TaskState.created url depth])
    else ((url, depth) :: rest, tasks)

/-- The dispatch loop acting on the crawler state: only `to_visit` is consumed. -/
def dispatchLoop (c : Crawler) (st : CrawlerState) (tasks : List TaskState) :
    CrawlerState × List TaskState :=
  let r := dispatchLoopAux c st.pagesCrawled st.toVisit tasks
  ({ st with toVisit := r.1 }, r.2)

/-- `t.done()`. -/
def isDone : TaskState → Bool
  | TaskState.done => true
  | _ => false

/-- The outer `while` condition of `crawl`. -/
def outerCond (c : Crawler) (st : CrawlerState) (tasks : List TaskState) : Prop :=
  (st.toVisit ≠ [] ∨ tasks ≠ []) ∧ st.pagesCrawled < c.maxPages

instance (c : Crawler) (st : CrawlerState) (tasks : List TaskState) :
    Decidable (outerCond c st tasks) := by unfold outerCond; infer_instance

/-- One interleaving step of the event loop running `crawl` and its tasks.

* `dispatch`: the `crawl` coroutine re-enters the outer loop, runs the synchronous inner
  dispatch loop, and suspends in `asyncio.wait` (or immediately re-tests when it created
  no task and holds none, since `if tasks:` skips the wait).
* `exitLoop`: the outer condition fails; `crawl` leaves the loop.
* `startInvalid` / `startValid`: a created task begins executing the synchronous prefix of
  `_fetch_page`; it either returns at the validity re-check, or marks the URL visited,
  increments `pages_crawled` and issues the page fetch.
* `complete`: an in-flight page fetch resolves and the task runs the remainder of
  `_fetch_page` (pattern save, extraction, downloads, enqueues), then finishes.
* `wake`: `asyncio.wait(..., return_when=FIRST_COMPLETED)` returns because at least one
  task completed; the completed tasks are dropped and `crawl` re-tests the outer condition.

Task-body steps are allowed in `finished` mode too: tasks left pending when the budget
exhausts the loop keep running while the client session shuts down. -/
inductive Step (c : Crawler) (w : World) (outputDir : String) : SysState → SysState → Prop where
  | dispatch (st : CrawlerState) (tasks : List TaskState)
      (hcond : outerCond c st tasks) :
      Step c w outputDir ⟨st, tasks, Mode.dispatching⟩
        ⟨(dispatchLoop c st tasks).1, (dispatchLoop c st tasks).2,
         if (dispatchLoop c st tasks).2 = [] then Mode.dispatching else Mode.waiting⟩
  | exitLoop (st : CrawlerState) (tasks : List TaskState)
      (hcond : ¬ outerCond c st tasks) :
      Step c w outputDir ⟨st, tasks, Mode.dispatching⟩ ⟨st, tasks, Mode.finished⟩
  | startInvalid (st : CrawlerState) (pre post : List TaskState) (u : String) (d : Nat)
      (m : Mode) (hm : m ≠ Mode.dispatching)
      (hv : fetchPageStart c st u d = none) :
      Step c w outputDir ⟨st, pre ++ TaskState.created u d :: post, m⟩
        ⟨st, pre ++ TaskState.done :: post, m⟩
  | startValid (st st' : CrawlerState) (pre post : List TaskState) (u : String) (d : Nat)
      (m : Mode) (hm : m ≠ Mode.dispatching)
      (hv : fetchPageStart c st u d = some st') :
      Step c w outputDir ⟨st, pre ++ TaskState.created u d :: post, m⟩
        ⟨st', pre ++ TaskState.inFlight u d :: post, m⟩
  | complete (st : CrawlerState) (pre post : List TaskState) (u : String) (d : Nat)
      (m : Mode) (hm : m ≠ Mode.dispatching) :
      Step c w outputDir ⟨st, pre ++ TaskState.inFlight u d :: post, m⟩
        ⟨fetchPageRest c w outputDir st u d, pre ++ TaskState.done :: post, m⟩
  | wake (st : CrawlerState) (tasks : List TaskState)
      (hdone : TaskState.done ∈ tasks) :
      Step c w outputDir ⟨st, tasks, Mode.waiting⟩
        ⟨st, tasks.filter (fun t => ¬ isDone t), Mode.dispatching⟩

/-- The system state at the start of `crawl`. -/
def initSys (c : Crawler) : SysState := ⟨initState c.startUrl, [], Mode.dispatching⟩

/-- States the crawl can reach from its start under some interleaving. -/
inductive Reachable (c : Crawler) (w : World) (outputDir : String) : SysState → Prop where
  | start : Reachable c w outputDir (initSys c)
  | step {s s' : SysState} (hs : Reachable c w outputDir s)
      (hstep : Step c w outputDir s s') : Reachable c w outputDir s'

/-! ## Observations of the ghost log and the task list -/

/-- The page fetches started, in order, with their depths. -/
def fetchEvents (l : List Event) : List (String × Nat) :=
  l.filterMap fun e => match e with
    | Event.fetchStart u d => some (u, d)
    | _ => none

/-- The URLs of the page fetches started, in order. -/
def fetchUrls (l : List Event) : List String := (fetchEvents l).map Prod.fst

/-- The URLs of the file-download network attempts, in order. -/
def downloadUrls (l : List Event) : List String :=
  l.filterMap fun e => match e with
    | Event.downloadAttempt u => some u
    | _ => none

/-- The URLs ever appended to `to_visit`, in order (the seed included). -/
def enqUrls (l : List Event) : List String :=
  l.filterMap fun e => match e with
    | Event.enq u => some u
    | _ => none

/-- The URLs of not-yet-executed tasks, in order. -/
def createdUrls (ts : List TaskState) : List String :=
  ts.filterMap fun t => match t with
    | TaskState.created u _ => some u
    | _ => none

/-- The number of page fetches currently in flight. -/
def inFlightCount (ts : List TaskState) : Nat :=
  (ts.filter fun t => match t with
    | TaskState.inFlight _ _ => true
    | _ => false).length

/-! ## Basic lemmas about the observations -/

theorem fetchEvents_append (l₁ l₂ : List Event) :
    fetchEvents (l₁ ++ l₂) = fetchEvents l₁ ++ fetchEvents l₂ := by
  simp [fetchEvents]

theorem enqUrls_append (l₁ l₂ : List Event) :
    enqUrls (l₁ ++ l₂) = enqUrls l₁ ++ enqUrls l₂ := by
  simp [enqUrls]

theorem downloadUrls_append (l₁ l₂ : List Event) :
    downloadUrls (l₁ ++ l₂) = downloadUrls l₁ ++ downloadUrls l₂ := by
  simp [downloadUrls]

theorem createdUrls_append (t₁ t₂ : List TaskState) :
    createdUrls (t₁ ++ t₂) = createdUrls t₁ ++ createdUrls t₂ := by
  simp [createdUrls]

theorem fetchEvents_enq (u : String) : fetchEvents [Event.enq u] = [] := rfl

theorem fetchEvents_download (u : String) : fetchEvents [Event.downloadAttempt u] = [] := rfl

theorem fetchEvents_fetch (u : String) (d : Nat) :
    fetchEvents [Event.fetchStart u d] = [(u, d)] := rfl

theorem enqUrls_enq (u : String) : enqUrls [Event.enq u] = [u] := rfl

theorem enqUrls_download (u : String) : enqUrls [Event.downloadAttempt u] = [] := rfl

theorem enqUrls_fetch (u : String) (d : Nat) : enqUrls [Event.fetchStart u d] = [] := rfl

theorem createdUrls_created (u : String) (d : Nat) :
    createdUrls [TaskState.created u d] = [u] := rfl

theorem createdUrls_inFlight (u : String) (d : Nat) :
    createdUrls [TaskState.inFlight u d] = [] := rfl

theorem createdUrls_done : createdUrls [TaskState.done] = [] := rfl

theorem createdUrls_filter_not_done (ts : List TaskState) :
    createdUrls (ts.filter (fun t => ¬ isDone t)) = createdUrls ts := by
  induction ts with
  | nil => rfl
  | cons t ts ih =>
    cases t <;> simp [createdUrls, isDone, List.filter] at ih ⊢ <;> simpa [createdUrls] using ih

/-! ## Effect shapes of the per-operation state transformers -/

/-- `_download_file` either skips, fails before the destination file is opened, fails
after the open created the file, or succeeds: in no case does it touch `visited`,
`queued`, `to_visit`, `saved_pages` or `pages_crawled`, and it extends
`downloaded_files` only on the success path. -/
theorem downloadFile_cases (c : Crawler) (w : World) (o : String) (st : CrawlerState)
    (url : String) :
    (downloadFile c w o st url).2 = st ∨
    (downloadFile c w o st url).2 = { st with log := st.log ++ [Event.downloadAttempt url] } ∨
    (downloadFile c w o st url).2 =
      { st with log := st.log ++ [Event.downloadAttempt url],
                fs := (o ++ "/" ++ downloadFileName c st url) :: st.fs } ∨
    (downloadFile c w o st url).2 =
      { st with log := st.log ++ [Event.downloadAttempt url],
                fs := (o ++ "/" ++ downloadFileName c st url) :: st.fs,
                downloadedFiles := url :: st.downloadedFiles } := by
  simp only [downloadFile, downloadFileBody]
  split_ifs with h
  · exact Or.inl rfl
  · cases hn : w.fileNet url with
    | error e => simp [hn]
    | ok v =>
      cases ho : w.fileOpen (o ++ "/" ++ downloadFileName c st url) with
      | error e => simp [hn, ho]
      | ok v' =>
        cases hr : w.fileRead url with
        | error e => simp [hn, ho, hr]
        | ok v'' =>
          cases hw : w.fileWrite (o ++ "/" ++ downloadFileName c st url) with
          | error e => simp [hn, ho, hr, hw]
          | ok v''' => simp [hn, ho, hr, hw]

/-- `_save_matching_page` touches only `saved_pages` and the filesystem. -/
theorem saveMatchingPage_cases (w : World) (o : String) (st : CrawlerState) (url : String) :
    saveMatchingPage w o st url = st ∨
    saveMatchingPage w o st url =
      { st with fs := (o ++ "/matching_pages" ++ "/" ++ savePageName url) :: st.fs,
                savedPages := url :: st.savedPages } := by
  simp only [saveMatchingPage, saveMatchingPageBody]
  split_ifs with h
  · exact Or.inl rfl
  · cases hw : w.fileWrite (o ++ "/matching_pages" ++ "/" ++ savePageName url) with
    | error e => simp [hw]
    | ok v => simp [hw]

/-- The fields of the state `_download_file` does not write. -/
theorem downloadFile_fields (c : Crawler) (w : World) (o : String) (st : CrawlerState)
    (url : String) :
    (downloadFile c w o st url).2.visited = st.visited ∧
    (downloadFile c w o st url).2.queued = st.queued ∧
    (downloadFile c w o st url).2.toVisit = st.toVisit ∧
    (downloadFile c w o st url).2.pagesCrawled = st.pagesCrawled ∧
    fetchEvents (downloadFile c w o st url).2.log = fetchEvents st.log ∧
    enqUrls (downloadFile c w o st url).2.log = enqUrls st.log := by
  rcases downloadFile_cases c w o st url with h | h | h | h <;>
    simp [h, fetchEvents_append, enqUrls_append, fetchEvents_download, enqUrls_download]

/-- The fields of the state `_save_matching_page` does not write. -/
theorem saveMatchingPage_fields (w : World) (o : String) (st : CrawlerState) (url : String) :
    (saveMatchingPage w o st url).visited = st.visited ∧
    (saveMatchingPage w o st url).queued = st.queued ∧
    (saveMatchingPage w o st url).toVisit = st.toVisit ∧
    (saveMatchingPage w o st url).pagesCrawled = st.pagesCrawled ∧
    (saveMatchingPage w o st url).log = st.log := by
  rcases saveMatchingPage_cases w o st url with h | h <;> simp [h]

/-- The fields the download gather does not write. -/
theorem downloadAll_fields (c : Crawler) (w : World) (o : String) (us : List String)
    (st : CrawlerState) :
    (downloadAll c w o st us).visited = st.visited ∧
    (downloadAll c w o st us).queued = st.queued ∧
    (downloadAll c w o st us).toVisit = st.toVisit ∧
    (downloadAll c w o st us).pagesCrawled = st.pagesCrawled ∧
    fetchEvents (downloadAll c w o st us).log = fetchEvents st.log ∧
    enqUrls (downloadAll c w o st us).log = enqUrls st.log := by
  induction us generalizing st with
  | nil => simp [downloadAll]
  | cons u us ih =>
    have hd := downloadFile_fields c w o st u
    have hi := ih (downloadFile c w o st u).2
    simp only [downloadAll]
    exact ⟨hi.1.trans hd.1, hi.2.1.trans hd.2.1, hi.2.2.1.trans hd.2.2.1,
           hi.2.2.2.1.trans hd.2.2.2.1, hi.2.2.2.2.1.trans hd.2.2.2.2.1,
           hi.2.2.2.2.2.trans hd.2.2.2.2.2⟩

/-- A rejected candidate leaves the state untouched (the dedup gate mutates nothing on
rejection). -/
theorem enqueueOne_rejected (st : CrawlerState) (d : Nat) (u : String)
    (h : urldefrag u ∈ st.visited ∨ urldefrag u ∈ st.queued) :
    enqueueOne st d u = st := by
  simp only [enqueueOne]
  simp [h]

/-- The fields the enqueue loop body does not write. -/
theorem enqueueOne_fields (st : CrawlerState) (d : Nat) (u : String) :
    (enqueueOne st d u).visited = st.visited ∧
    (enqueueOne st d u).pagesCrawled = st.pagesCrawled ∧
    fetchEvents (enqueueOne st d u).log = fetchEvents st.log := by
  simp only [enqueueOne]
  split_ifs with h <;> simp [fetchEvents_append, fetchEvents_enq]

/-- The fields the whole enqueue loop does not write. -/
theorem enqueueAll_fields (d : Nat) (us : List String) (st : CrawlerState) :
    (enqueueAll d st us).visited = st.visited ∧
    (enqueueAll d st us).pagesCrawled = st.pagesCrawled ∧
    fetchEvents (enqueueAll d st us).log = fetchEvents st.log := by
  induction us generalizing st with
  | nil => simp [enqueueAll]
  | cons u us ih =>
    have h1 := enqueueOne_fields st d u
    have hi := ih (enqueueOne st d u)
    simp only [enqueueAll]
    exact ⟨hi.1.trans h1.1, hi.2.1.trans h1.2.1, hi.2.2.trans h1.2.2⟩

/-! ## Effect shape of the post-fetch remainder of `_fetch_page` -/

theorem handleFetchErr_eq (e : PyErr) (s : CrawlerState) : handleFetchErr (e, s) = s := by
  cases e <;> rfl

/-- A failed page fetch leaves the crawler state exactly as it was at the raise point. -/
theorem fetchPageRest_error (c : Crawler) (w : World) (o : String) (st : CrawlerState)
    (url : String) (depth : Nat) (e : PyErr) (h : w.pageResult url = Except.error e) :
    fetchPageRest c w o st url depth = st := by
  unfold fetchPageRest fetchPageBody
  rw [h]
  exact handleFetchErr_eq e st

/-- A successful page fetch runs `processPage`. -/
theorem fetchPageRest_ok (c : Crawler) (w : World) (o : String) (st : CrawlerState)
    (url : String) (depth : Nat) (page : Page) (h : w.pageResult url = Except.ok page) :
    fetchPageRest c w o st url depth = processPage c w o st url depth page := by
  unfold fetchPageRest fetchPageBody
  rw [h]

theorem patternCheck_fields (c : Crawler) (w : World) (o : String) (st : CrawlerState)
    (url : String) (page : Page) :
    (patternCheck c w o st url page).visited = st.visited ∧
    (patternCheck c w o st url page).queued = st.queued ∧
    (patternCheck c w o st url page).toVisit = st.toVisit ∧
    (patternCheck c w o st url page).pagesCrawled = st.pagesCrawled ∧
    (patternCheck c w o st url page).downloadedFiles = st.downloadedFiles ∧
    (patternCheck c w o st url page).log = st.log := by
  unfold patternCheck
  cases c.contentPattern with
  | none => simp
  | some pat =>
    dsimp only
    split_ifs with h
    · have hs := saveMatchingPage_cases w o st url
      rcases hs with hs | hs <;> simp [hs]
    · simp

/-- The fields of the state the whole post-fetch remainder does not write: `visited` and
`pages_crawled` are untouched, and no further `fetchStart` event appears. -/
theorem fetchPageRest_fields (c : Crawler) (w : World) (o : String) (st : CrawlerState)
    (url : String) (depth : Nat) :
    (fetchPageRest c w o st url depth).visited = st.visited ∧
    (fetchPageRest c w o st url depth).pagesCrawled = st.pagesCrawled ∧
    fetchEvents (fetchPageRest c w o st url depth).log = fetchEvents st.log := by
  cases hp : w.pageResult url with
  | error e => rw [fetchPageRest_error c w o st url depth e hp]; exact ⟨rfl, rfl, rfl⟩
  | ok page =>
    rw [fetchPageRest_ok c w o st url depth page hp]
    unfold processPage
    have h2 := patternCheck_fields c w o st url page
    have h3 := downloadAll_fields c w o
      (extractLinks c (patternCheck c w o st url page) page.tags url).1
      (patternCheck c w o st url page)
    split_ifs with hd
    · have h4 := enqueueAll_fields depth
        (extractLinks c (patternCheck c w o st url page) page.tags url).2
        (downloadAll c w o (patternCheck c w o st url page)
          (extractLinks c (patternCheck c w o st url page) page.tags url).1)
      refine ⟨?_, ?_, ?_⟩
      · rw [h4.1, h3.1, h2.1]
      · rw [h4.2.1, h3.2.2.2.1, h2.2.2.2.1]
      · rw [h4.2.2, h3.2.2.2.2.1]
        have := patternCheck_fields c w o st url page
        rw [this.2.2.2.2.2]
    · refine ⟨?_, ?_, ?_⟩
      · rw [h3.1, h2.1]
      · rw [h3.2.2.2.1, h2.2.2.2.1]
      · rw [h3.2.2.2.2.1, h2.2.2.2.2.2]

/-! ## Dispatch-loop lemmas -/

/-- The dispatch loop never grows the task list beyond `max_concurrent`. -/
theorem dispatchLoopAux_length (c : Crawler) (p : Nat) (tv : List (String × Nat))
    (ts : List TaskState) (h : ts.length ≤ c.maxConcurrent) :
    (dispatchLoopAux c p tv ts).2.length ≤ c.maxConcurrent := by
  induction tv generalizing ts with
  | nil => simpa [dispatchLoopAux] using h
  | cons ud rest ih =>
    obtain ⟨u, d⟩ := ud
    simp only [dispatchLoopAux]
    split_ifs with hc
    · exact ih (ts ++ [TaskState.created u d]) (by simp; omega)
    · simpa using h

/-- The dispatch loop pops a prefix of the queue and appends exactly those pairs as
created tasks. -/
theorem dispatchLoopAux_decomp (c : Crawler) (p : Nat) (tv : List (String × Nat))
    (ts : List TaskState) :
    ∃ popped, tv = popped ++ (dispatchLoopAux c p tv ts).1 ∧
      (dispatchLoopAux c p tv ts).2 =
        ts ++ popped.map (fun q => TaskState.created q.1 q.2) := by
  induction tv generalizing ts with
  | nil => exact ⟨[], by simp [dispatchLoopAux]⟩
  | cons ud rest ih =>
    obtain ⟨u, d⟩ := ud
    simp only [dispatchLoopAux]
    split_ifs with hc
    · obtain ⟨pp, h1, h2⟩ := ih (ts ++ [TaskState.created u d])
      refine ⟨(u, d) :: pp, by simp [← h1], ?_⟩
      rw [h2]
      simp
    · exact ⟨[], by simp⟩

theorem createdUrls_map_created (pp : List (String × Nat)) :
    createdUrls (pp.map (fun q => TaskState.created q.1 q.2)) = pp.map Prod.fst := by
  induction pp with
  | nil => rfl
  | cons q pp ih => simp [createdUrls, List.filterMap_cons] at ih ⊢; exact ih

/-- The dispatch loop preserves the pipeline (created-task URLs followed by queued URLs)
as a list: it moves a prefix of the queue to the end of the created tasks. -/
theorem dispatchLoopAux_pipeline (c : Crawler) (p : Nat) (tv : List (String × Nat))
    (ts : List TaskState) :
    createdUrls (dispatchLoopAux c p tv ts).2 ++ ((dispatchLoopAux c p tv ts).1).map Prod.fst
      = createdUrls ts ++ tv.map Prod.fst := by
  obtain ⟨pp, h1, h2⟩ := dispatchLoopAux_decomp c p tv ts
  rw [h2, createdUrls_append, createdUrls_map_created]
  conv_rhs => rw [h1]
  simp

/-! ## The crawl-state invariant -/

/-- The crawl-state part of the global invariant, relative to the URLs `C` of the
created-but-not-yet-run tasks:

* `pagesEq`: `pages_crawled` counts exactly the page fetches started;
* `nodup`: no URL occurs twice across the fetches already started, the created tasks and
  the queue — each URL string goes through the fetch pipeline at most once;
* `fq`/`pq`/`enq_q`: every such URL is recorded in `queued_urls` (which never shrinks);
* `enodup`: no URL is appended to `to_visit` twice. -/
structure SInv (c : Crawler) (C : List String) (st : CrawlerState) : Prop where
  pagesEq : (fetchEvents st.log).length = st.pagesCrawled
  nodup : (fetchUrls st.log ++ (C ++ st.toVisit.map Prod.fst)).Nodup
  fq : ∀ u ∈ fetchUrls st.log, u ∈ st.queued
  pq : ∀ u ∈ C ++ st.toVisit.map Prod.fst, u ∈ st.queued
  enodup : (enqUrls st.log).Nodup
  enq_q : ∀ u ∈ enqUrls st.log, u ∈ st.queued

/-- Transfer `SInv` across a state change that does not touch the relevant fields. -/
theorem sinv_transfer {c : Crawler} {C : List String} {st st' : CrawlerState}
    (h : SInv c C st)
    (hfe : fetchEvents st'.log = fetchEvents st.log)
    (hen : enqUrls st'.log = enqUrls st.log)
    (ht : st'.toVisit = st.toVisit)
    (hq : st'.queued = st.queued)
    (hp : st'.pagesCrawled = st.pagesCrawled) : SInv c C st' := by
  refine ⟨?_, ?_, ?_, ?_, ?_, ?_⟩
  · rw [hfe, hp]; exact h.pagesEq
  · rw [fetchUrls, hfe, ht]; exact h.nodup
  · intro u hu; rw [fetchUrls, hfe] at hu; rw [hq]; exact h.fq u hu
  · intro u hu; rw [ht] at hu; rw [hq]; exact h.pq u hu
  · rw [hen]; exact h.enodup
  · intro u hu; rw [hen] at hu; rw [hq]; exact h.enq_q u hu

/-- The accepted branch of the enqueue gate, explicitly. -/
theorem enqueueOne_accepted (st : CrawlerState) (d : Nat) (u : String)
    (h : ¬ (urldefrag u ∈ st.visited ∨ urldefrag u ∈ st.queued)) :
    enqueueOne st d u =
      { st with toVisit := st.toVisit ++ [(urldefrag u, d + 1)],
                queued := urldefrag u :: st.queued,
                log := st.log ++ [Event.enq (urldefrag u)] } := by
  simp only [enqueueOne]
  rw [if_neg h]

theorem enqueueOne_sinv {c : Crawler} {C : List String} {st : CrawlerState}
    (d : Nat) (u : String) (h : SInv c C st) : SInv c C (enqueueOne st d u) := by
  by_cases hmem : urldefrag u ∈ st.visited ∨ urldefrag u ∈ st.queued
  · rw [enqueueOne_rejected st d u hmem]; exact h
  · rw [enqueueOne_accepted st d u hmem]
    have hpq : urldefrag u ∉ st.queued := fun hq => hmem (Or.inr hq)
    refine ⟨?_, ?_, ?_, ?_, ?_, ?_⟩
    · simpa [fetchEvents_append, fetchEvents_enq] using h.pagesEq
    · have hshape :
          (fetchUrls (st.log ++ [Event.enq (urldefrag u)]) ++
            (C ++ (st.toVisit ++ [(urldefrag u, d + 1)]).map Prod.fst)) =
          ((fetchUrls st.log ++ (C ++ st.toVisit.map Prod.fst)) ++ [urldefrag u]) := by
        simp [fetchUrls, fetchEvents_append, fetchEvents_enq]
      rw [hshape]
      rw [List.nodup_append]
      refine ⟨h.nodup, List.nodup_singleton _, ?_⟩
      intro a ha hb
      have : a = urldefrag u := by simpa using hb
      subst this
      rcases List.mem_append.mp ha with h1 | h2
      · exact hpq (h.fq _ h1)
      · exact hpq (h.pq _ h2)
    · intro v hv
      have : v ∈ fetchUrls st.log := by
        simpa [fetchUrls, fetchEvents_append, fetchEvents_enq] using hv
      exact List.mem_cons_of_mem _ (h.fq v this)
    · intro v hv
      rw [List.map_append] at hv
      rcases List.mem_append.mp hv with h1 | h2
      · exact List.mem_cons_of_mem _ (h.pq v (List.mem_append.mpr (Or.inl h1)))
      · rcases List.mem_append.mp h2 with h3 | h4
        · exact List.mem_cons_of_mem _ (h.pq v (List.mem_append.mpr (Or.inr h3)))
        · have hv4 : v = urldefrag u := by simpa using h4
          subst hv4; exact List.mem_cons_self _ _
    · rw [enqUrls_append, enqUrls_enq]
      rw [List.nodup_append]
      refine ⟨h.enodup, List.nodup_singleton _, ?_⟩
      intro a ha hb
      have : a = urldefrag u := by simpa using hb
      subst this
      exact hpq (h.enq_q _ ha)
    · intro v hv
      rw [enqUrls_append, enqUrls_enq] at hv
      rcases List.mem_append.mp hv with h1 | h2
      · exact List.mem_cons_of_mem _ (h.enq_q v h1)
      · have : v = urldefrag u := by simpa using h2
        subst this; exact List.mem_cons_self _ _

theorem enqueueAll_sinv {c : Crawler} {C : List String} (d : Nat) (us : List String)
    {st : CrawlerState} (h : SInv c C st) : SInv c C (enqueueAll d st us) := by
  induction us generalizing st with
  | nil => exact h
  | cons u us ih => exact ih (enqueueOne_sinv d u h)

theorem downloadFile_sinv {c : Crawler} {C : List String} {st : CrawlerState}
    (w : World) (o : String) (u : String) (h : SInv c C st) :
    SInv c C (downloadFile c w o st u).2 := by
  have hf := downloadFile_fields c w o st u
  exact sinv_transfer h hf.2.2.2.2.1 hf.2.2.2.2.2 hf.2.2.1 hf.2.1 hf.2.2.2.1

theorem downloadAll_sinv {c : Crawler} {C : List String} (w : World) (o : String)
    (us : List String) {st : CrawlerState} (h : SInv c C st) :
    SInv c C (downloadAll c w o st us) := by
  induction us generalizing st with
  | nil => exact h
  | cons u us ih => exact ih (downloadFile_sinv w o u h)

theorem patternCheck_sinv {c : Crawler} {C : List String} {st : CrawlerState}
    (w : World) (o : String) (u : String) (page : Page) (h : SInv c C st) :
    SInv c C (patternCheck c w o st u page) := by
  have hf := patternCheck_fields c w o st u page
  exact sinv_transfer h (by rw [hf.2.2.2.2.2]) (by rw [hf.2.2.2.2.2]) hf.2.2.1 hf.2.1
    hf.2.2.2.1

/-- The whole post-fetch remainder preserves the crawl-state invariant. -/
theorem fetchPageRest_sinv {c : Crawler} {C : List String} {st : CrawlerState}
    (w : World) (o : String) (u : String) (d : Nat) (h : SInv c C st) :
    SInv c C (fetchPageRest c w o st u d) := by
  cases hp : w.pageResult u with
  | error e => rw [fetchPageRest_error c w o st u d e hp]; exact h
  | ok page =>
    rw [fetchPageRest_ok c w o st u d page hp]
    unfold processPage
    have h2 := patternCheck_sinv w o u page h
    have h3 := downloadAll_sinv w o
      (extractLinks c (patternCheck c w o st u page) page.tags u).1 h2
    split_ifs with hd
    · exact enqueueAll_sinv d _ h3
    · exact h3

/-! ## Extraction lemmas for the validity gate and the fetch prefix -/

/-- What `_is_valid_url` returning `True` guarantees. -/
theorem isValidUrl_spec (c : Crawler) (st : CrawlerState) (url : String) (d : Nat)
    (h : isValidUrl c st url d = true) :
    urldefrag url ∉ st.visited ∧ d ≤ c.maxDepth ∧
    (c.stayOnDomain = true → (parseUrl url).netloc = startDomain c) ∧
    canFetch c (urldefrag url) = true ∧
    ((parseUrl url).scheme = "http" ∨ (parseUrl url).scheme = "https") := by
  simp only [isValidUrl] at h
  split_ifs at h with h1 h2 h3 h4 h5
  push_neg at h3
  refine ⟨h1, by omega, ?_, ?_, ?_⟩
  · intro hd
    rw [← parseUrl_urldefrag]
    exact h3 hd
  · exact h4
  · rw [← parseUrl_urldefrag url]
    by_cases hh : (parseUrl (urldefrag url)).scheme = "http"
    · exact Or.inl hh
    · push_neg at h5
      exact Or.inr (h5 hh)

/-- What a successful `fetchPageStart` did. -/
theorem fetchPageStart_some {c : Crawler} {st st' : CrawlerState} {u : String} {d : Nat}
    (h : fetchPageStart c st u d = some st') :
    isValidUrl c st u d = true ∧
    st' = { st with visited := u :: st.visited,
                    pagesCrawled := st.pagesCrawled + 1,
                    log := st.log ++ [Event.fetchStart u d] } := by
  unfold fetchPageStart at h
  split_ifs at h with hv
  exact ⟨hv, (Option.some.inj h).symm⟩

/-! ## Task-list bookkeeping lemmas -/

theorem createdUrls_middle_created (pre post : List TaskState) (u : String) (d : Nat) :
    createdUrls (pre ++ TaskState.created u d :: post)
      = createdUrls pre ++ u :: createdUrls post := by
  simp [createdUrls]

theorem createdUrls_middle_inFlight (pre post : List TaskState) (u : String) (d : Nat) :
    createdUrls (pre ++ TaskState.inFlight u d :: post)
      = createdUrls pre ++ createdUrls post := by
  simp [createdUrls]

theorem createdUrls_middle_done (pre post : List TaskState) :
    createdUrls (pre ++ TaskState.done :: post) = createdUrls pre ++ createdUrls post := by
  simp [createdUrls]

theorem fetchUrls_append_fetch (l : List Event) (u : String) (d : Nat) :
    fetchUrls (l ++ [Event.fetchStart u d]) = fetchUrls l ++ [u] := by
  simp [fetchUrls, fetchEvents_append, fetchEvents_fetch]

theorem enqUrls_append_fetch (l : List Event) (u : String) (d : Nat) :
    enqUrls (l ++ [Event.fetchStart u d]) = enqUrls l := by
  simp [enqUrls_append, enqUrls_fetch]

/-- Moving an element from the middle of the pipeline to the end of the fetch log
preserves distinctness (the two lists are permutations). -/
theorem nodup_move_middle (F Cp Cq TV : List String) (u : String)
    (h : (F ++ ((Cp ++ u :: Cq) ++ TV)).Nodup) :
    ((F ++ [u]) ++ ((Cp ++ Cq) ++ TV)).Nodup := by
  have h1 : ((F ++ [u]) ++ ((Cp ++ Cq) ++ TV)) = F ++ (u :: (Cp ++ (Cq ++ TV))) := by
    simp
  have h2 : (F ++ ((Cp ++ u :: Cq) ++ TV)) = F ++ (Cp ++ (u :: (Cq ++ TV))) := by
    simp
  rw [h2] at h
  rw [h1]
  have hp : (F ++ (u :: (Cp ++ (Cq ++ TV)))).Perm (F ++ (Cp ++ (u :: (Cq ++ TV)))) :=
    List.Perm.append_left F List.perm_middle.symm
  exact hp.nodup_iff.mpr h

/-- Dropping an element of the pipeline preserves the invariant. -/
theorem sinv_shrink {c : Crawler} {Cp Cq : List String} {u : String} {st : CrawlerState}
    (h : SInv c (Cp ++ u :: Cq) st) : SInv c (Cp ++ Cq) st := by
  refine ⟨h.pagesEq, ?_, h.fq, ?_, h.enodup, h.enq_q⟩
  · have hsub : (fetchUrls st.log ++ ((Cp ++ Cq) ++ st.toVisit.map Prod.fst)).Sublist
        (fetchUrls st.log ++ ((Cp ++ u :: Cq) ++ st.toVisit.map Prod.fst)) := by
      refine List.Sublist.append_left ?_ _
      refine List.Sublist.append_right ?_ _
      exact List.Sublist.append_left (List.sublist_cons_self _ _) _
    exact h.nodup.sublist hsub
  · intro v hv
    refine h.pq v ?_
    rcases List.mem_append.mp hv with h1 | h2
    · rcases List.mem_append.mp h1 with h3 | h4
      · exact List.mem_append.mpr (Or.inl (List.mem_append.mpr (Or.inl h3)))
      · exact List.mem_append.mpr (Or.inl (List.mem_append.mpr (Or.inr (List.mem_cons_of_mem _ h4))))
    · exact List.mem_append.mpr (Or.inr h2)


/-! ## The global invariant and its preservation -/

theorem createdUrls_length_le (ts : List TaskState) : (createdUrls ts).length ≤ ts.length :=
  List.length_filterMap_le _ _

/-- The global invariant of every reachable scheduler state:

* `lenB`: the task list never exceeds `max_concurrent`;
* `budget`: `pages_crawled` plus the number of created tasks that may still each start a
  fetch is bounded by `max_pages - 1 + max_concurrent`;
* `sinv`: the crawl-state invariant relative to the created tasks. -/
structure CrawlInv (c : Crawler) (s : SysState) : Prop where
  lenB : s.tasks.length ≤ c.maxConcurrent
  budget : s.st.pagesCrawled + (createdUrls s.tasks).length
    ≤ c.maxPages - 1 + c.maxConcurrent
  sinv : SInv c (createdUrls s.tasks) s.st

theorem inv_init (c : Crawler) : CrawlInv c (initSys c) := by
  refine ⟨by simp [initSys], by simp [initSys, initState, createdUrls], ?_⟩
  refine ⟨?_, ?_, ?_, ?_, ?_, ?_⟩ <;>
    simp [initSys, initState, createdUrls, fetchUrls, fetchEvents, enqUrls]

theorem step_inv {c : Crawler} {w : World} {o : String} {s s' : SysState}
    (h : CrawlInv c s) (hs : Step c w o s s') : CrawlInv c s' := by
  cases hs with
  | dispatch st tasks hcond =>
    have hd1 : (dispatchLoop c st tasks).1
        = { st with toVisit := (dispatchLoopAux c st.pagesCrawled st.toVisit tasks).1 } := rfl
    have hd2 : (dispatchLoop c st tasks).2
        = (dispatchLoopAux c st.pagesCrawled st.toVisit tasks).2 := rfl
    have hlen := dispatchLoopAux_length c st.pagesCrawled st.toVisit tasks h.lenB
    have hpipe := dispatchLoopAux_pipeline c st.pagesCrawled st.toVisit tasks
    have hsi := h.sinv
    refine ⟨?_, ?_, ?_⟩
    · show (dispatchLoop c st tasks).2.length ≤ c.maxConcurrent
      rw [hd2]; exact hlen
    · show (dispatchLoop c st tasks).1.pagesCrawled
        + (createdUrls (dispatchLoop c st tasks).2).length ≤ c.maxPages - 1 + c.maxConcurrent
      rw [hd1, hd2]
      have hcle := le_trans
        (createdUrls_length_le (dispatchLoopAux c st.pagesCrawled st.toVisit tasks).2) hlen
      have hp2 : st.pagesCrawled < c.maxPages := hcond.2
      dsimp only
      omega
    · show SInv c (createdUrls (dispatchLoop c st tasks).2) (dispatchLoop c st tasks).1
      rw [hd1, hd2]
      refine ⟨?_, ?_, ?_, ?_, ?_, ?_⟩ <;> dsimp only
      · exact hsi.pagesEq
      · rw [hpipe]; exact hsi.nodup
      · exact hsi.fq
      · intro v hv; rw [hpipe] at hv; exact hsi.pq v hv
      · exact hsi.enodup
      · exact hsi.enq_q
  | exitLoop st tasks hcond => exact ⟨h.lenB, h.budget, h.sinv⟩
  | startInvalid st pre post u d m hm hv =>
    have hb := h.budget
    have hsi := h.sinv
    rw [createdUrls_middle_created] at hb hsi
    refine ⟨?_, ?_, ?_⟩
    · have := h.lenB
      simpa using this
    · rw [createdUrls_middle_done]
      simp only [List.length_append, List.length_cons] at hb ⊢
      omega
    · rw [createdUrls_middle_done]
      exact sinv_shrink hsi
  | startValid st st' pre post u d m hm hv =>
    obtain ⟨hval, hst'⟩ := fetchPageStart_some hv
    subst hst'
    have hb := h.budget
    have hsi := h.sinv
    rw [createdUrls_middle_created] at hb hsi
    refine ⟨?_, ?_, ?_⟩
    · have := h.lenB
      simpa using this
    · rw [createdUrls_middle_inFlight]
      simp only [List.length_append, List.length_cons] at hb ⊢
      omega
    · rw [createdUrls_middle_inFlight]
      refine ⟨?_, ?_, ?_, ?_, ?_, ?_⟩ <;> dsimp only
      · rw [fetchEvents_append, fetchEvents_fetch]
        simp [hsi.pagesEq]
      · rw [fetchUrls_append_fetch]
        exact nodup_move_middle _ _ _ _ _ hsi.nodup
      · intro v hvmem
        rw [fetchUrls_append_fetch] at hvmem
        rcases List.mem_append.mp hvmem with h1 | h2
        · exact hsi.fq v h1
        · have : v = u := by simpa using h2
          subst this
          exact hsi.pq v (List.mem_append.mpr (Or.inl
            (List.mem_append.mpr (Or.inr (List.mem_cons_self _ _)))))
      · intro v hvmem
        refine hsi.pq v ?_
        rcases List.mem_append.mp hvmem with h1 | h2
        · rcases List.mem_append.mp h1 with h3 | h4
          · exact List.mem_append.mpr (Or.inl (List.mem_append.mpr (Or.inl h3)))
          · exact List.mem_append.mpr
              (Or.inl (List.mem_append.mpr (Or.inr (List.mem_cons_of_mem _ h4))))
        · exact List.mem_append.mpr (Or.inr h2)
      · rw [enqUrls_append_fetch]
        exact hsi.enodup
      · intro v hvmem
        rw [enqUrls_append_fetch] at hvmem
        exact hsi.enq_q v hvmem
  | complete st pre post u d m hm =>
    have hf := fetchPageRest_fields c w o st u d
    have hb := h.budget
    have hsi := h.sinv
    rw [createdUrls_middle_inFlight] at hb hsi
    refine ⟨?_, ?_, ?_⟩
    · have := h.lenB
      simpa using this
    · show (fetchPageRest c w o st u d).pagesCrawled
        + (createdUrls (pre ++ TaskState.done :: post)).length
        ≤ c.maxPages - 1 + c.maxConcurrent
      rw [createdUrls_middle_done, hf.2.1]
      exact hb
    · show SInv c (createdUrls (pre ++ TaskState.done :: post)) (fetchPageRest c w o st u d)
      rw [createdUrls_middle_done]
      exact fetchPageRest_sinv w o u d hsi
  | wake st tasks hdone =>
    refine ⟨?_, ?_, ?_⟩
    · exact le_trans (List.length_filter_le _ _) h.lenB
    · show st.pagesCrawled
        + (createdUrls (tasks.filter (fun t => ¬ isDone t))).length
        ≤ c.maxPages - 1 + c.maxConcurrent
      rw [createdUrls_filter_not_done]
      exact h.budget
    · show SInv c (createdUrls (tasks.filter (fun t => ¬ isDone t))) st
      rw [createdUrls_filter_not_done]
      exact h.sinv

/-- Every reachable state satisfies the global invariant. -/
theorem reachable_inv {c : Crawler} {w : World} {o : String} {s : SysState}
    (h : Reachable c w o s) : CrawlInv c s := by
  induction h with
  | start => exact inv_init c
  | step hs hstep ih => exact step_inv ih hstep

/-! ## Per-fetch-event properties and the fragment-free invariant -/

/-- Any property guaranteed by the validity gate holds of every page fetch ever started:
fetches are only started by `startValid`, which is guarded by `_is_valid_url`, and no
other step adds a `fetchStart` event. -/
theorem reachable_fetch_prop {c : Crawler} {w : World} {o : String} {s : SysState}
    (P : String → Nat → Prop)
    (hP : ∀ st u d, isValidUrl c st u d = true → P u d)
    (h : Reachable c w o s) : ∀ p ∈ fetchEvents s.st.log, P p.1 p.2 := by
  induction h with
  | start =>
    intro p hp
    simp [initSys, initState, fetchEvents] at hp
  | step hs hstep ih =>
    cases hstep with
    | dispatch st tasks hcond => exact ih
    | exitLoop st tasks hcond => exact ih
    | startInvalid st pre post u d m hm hv => exact ih
    | startValid st st' pre post u d m hm hv =>
      obtain ⟨hval, hst'⟩ := fetchPageStart_some hv
      subst hst'
      intro p hp
      dsimp only at hp
      rw [fetchEvents_append, fetchEvents_fetch] at hp
      rcases List.mem_append.mp hp with h1 | h2
      · exact ih p h1
      · have hpu : p = (u, d) := by simpa using h2
        subst hpu
        exact hP st u d hval
    | complete st pre post u d m hm =>
      intro p hp
      have hf := fetchPageRest_fields c w o st u d
      dsimp only at hp
      rw [hf.2.2] at hp
      exact ih p hp
    | wake st tasks hdone => exact ih

theorem enqueueOne_queuedFF {st : CrawlerState} (d : Nat) (v : String)
    (h : ∀ u ∈ st.queued, urldefrag u = u) :
    ∀ u ∈ (enqueueOne st d v).queued, urldefrag u = u := by
  by_cases hm : urldefrag v ∈ st.visited ∨ urldefrag v ∈ st.queued
  · rw [enqueueOne_rejected st d v hm]; exact h
  · rw [enqueueOne_accepted st d v hm]
    intro u hu
    dsimp only at hu
    rcases List.mem_cons.mp hu with h1 | h2
    · subst h1; exact urldefrag_idem v
    · exact h u h2

theorem enqueueAll_queuedFF (d : Nat) (us : List String) {st : CrawlerState}
    (h : ∀ u ∈ st.queued, urldefrag u = u) :
    ∀ u ∈ (enqueueAll d st us).queued, urldefrag u = u := by
  induction us generalizing st with
  | nil => exact h
  | cons v us ih => exact ih (enqueueOne_queuedFF d v h)

theorem fetchPageRest_queuedFF {c : Crawler} {w : World} {o : String} {st : CrawlerState}
    (url : String) (d : Nat) (h : ∀ u ∈ st.queued, urldefrag u = u) :
    ∀ u ∈ (fetchPageRest c w o st url d).queued, urldefrag u = u := by
  cases hp : w.pageResult url with
  | error e => rw [fetchPageRest_error c w o st url d e hp]; exact h
  | ok page =>
    rw [fetchPageRest_ok c w o st url d page hp]
    unfold processPage
    have h2 : ∀ u ∈ (patternCheck c w o st url page).queued, urldefrag u = u := by
      rw [(patternCheck_fields c w o st url page).2.1]; exact h
    have h3 : ∀ u ∈ (downloadAll c w o (patternCheck c w o st url page)
        (extractLinks c (patternCheck c w o st url page) page.tags url).1).queued,
        urldefrag u = u := by
      rw [(downloadAll_fields c w o _ _).2.1]; exact h2
    split_ifs with hd
    · exact enqueueAll_queuedFF d _ h3
    · exact h3

/-- When the seed URL carries no fragment, every URL ever in `queued_urls` is
fragment-free (discovered URLs are stripped at the enqueue gate; the seed is the only URL
inserted unstripped). -/
theorem reachable_queuedFF {c : Crawler} {w : World} {o : String} {s : SysState}
    (h : Reachable c w o s) (hseed : urldefrag c.startUrl = c.startUrl) :
    ∀ u ∈ s.st.queued, urldefrag u = u := by
  induction h with
  | start =>
    intro u hu
    simp [initSys, initState] at hu
    subst hu
    exact hseed
  | step hs hstep ih =>
    cases hstep with
    | dispatch st tasks hcond => exact ih
    | exitLoop st tasks hcond => exact ih
    | startInvalid st pre post u d m hm hv => exact ih
    | startValid st st' pre post u d m hm hv =>
      obtain ⟨hval, hst'⟩ := fetchPageStart_some hv
      subst hst'
      exact ih
    | complete st pre post u d m hm => exact fetchPageRest_queuedFF u d ih
    | wake st tasks hdone => exact ih

/-! ## Further supporting lemmas for the claims -/

theorem list_map_fix {l : List String} {f : String → String} (h : ∀ u ∈ l, f u = u) :
    l.map f = l := by
  induction l with
  | nil => rfl
  | cons a t ih =>
    have ha : f a = a := h a (List.mem_cons_self a t)
    have ht : ∀ u ∈ t, f u = u := fun u hu => h u (List.mem_cons_of_mem a hu)
    simp [ha, ih ht]

/-- A page fetched at depth exactly `max_depth` enqueues nothing: the
`depth < max_depth` guard fails, and neither the pattern save nor the downloads touch the
queue. -/
theorem fetchPageRest_no_enqueue_at_max (c : Crawler) (w : World) (o : String)
    (st : CrawlerState) (u : String) :
    (fetchPageRest c w o st u c.maxDepth).toVisit = st.toVisit ∧
    (fetchPageRest c w o st u c.maxDepth).queued = st.queued ∧
    enqUrls (fetchPageRest c w o st u c.maxDepth).log = enqUrls st.log := by
  cases hp : w.pageResult u with
  | error e => rw [fetchPageRest_error c w o st u c.maxDepth e hp]; exact ⟨rfl, rfl, rfl⟩
  | ok page =>
    rw [fetchPageRest_ok c w o st u c.maxDepth page hp]
    simp only [processPage]
    rw [if_neg (lt_irrefl c.maxDepth)]
    have h2 := patternCheck_fields c w o st u page
    have h3 := downloadAll_fields c w o
      (extractLinks c (patternCheck c w o st u page) page.tags u).1
      (patternCheck c w o st u page)
    refine ⟨?_, ?_, ?_⟩
    · rw [h3.2.2.1, h2.2.2.1]
    · rw [h3.2.1, h2.2.1]
    · rw [h3.2.2.2.2.2, h2.2.2.2.2.2]

/-- A file download with a failing network call: returns `False`, and mutates at most the
ghost log. -/
theorem downloadFile_netError (c : Crawler) (w : World) (o : String) (st : CrawlerState)
    (u : String) (e : PyErr) (hn : w.fileNet u = Except.error e) :
    (downloadFile c w o st u).1 = false ∧
    ((downloadFile c w o st u).2 = st ∨
     (downloadFile c w o st u).2 = { st with log := st.log ++ [Event.downloadAttempt u] }) := by
  simp only [downloadFile, downloadFileBody]
  split_ifs with h
  · exact ⟨rfl, Or.inl rfl⟩
  · simp [hn]

/-- A file download whose body read fails: the destination file was already created by
the open, so it remains on disk; the dedup set is untouched. -/
theorem downloadFile_readError (c : Crawler) (w : World) (o : String) (st : CrawlerState)
    (u : String) (e : PyErr) (hn : w.fileNet u = Except.ok ())
    (ho : w.fileOpen (o ++ "/" ++ downloadFileName c st u) = Except.ok ())
    (hr : w.fileRead u = Except.error e) :
    (downloadFile c w o st u).1 = false ∧
    ((downloadFile c w o st u).2 = st ∨
     (downloadFile c w o st u).2 =
       { st with log := st.log ++ [Event.downloadAttempt u],
                 fs := (o ++ "/" ++ downloadFileName c st u) :: st.fs }) := by
  simp only [downloadFile, downloadFileBody]
  split_ifs with h
  · exact ⟨rfl, Or.inl rfl⟩
  · simp [hn, ho, hr]

/-- A file download whose storage write fails: the destination file created by the open
remains on disk; the dedup set is untouched. -/
theorem downloadFile_writeError (c : Crawler) (w : World) (o : String) (st : CrawlerState)
    (u : String) (e : PyErr) (hn : w.fileNet u = Except.ok ())
    (ho : w.fileOpen (o ++ "/" ++ downloadFileName c st u) = Except.ok ())
    (hr : w.fileRead u = Except.ok ())
    (hw : w.fileWrite (o ++ "/" ++ downloadFileName c st u) = Except.error e) :
    (downloadFile c w o st u).1 = false ∧
    ((downloadFile c w o st u).2 = st ∨
     (downloadFile c w o st u).2 =
       { st with log := st.log ++ [Event.downloadAttempt u],
                 fs := (o ++ "/" ++ downloadFileName c st u) :: st.fs }) := by
  simp only [downloadFile, downloadFileBody]
  split_ifs with h
  · exact ⟨rfl, Or.inl rfl⟩
  · simp [hn, ho, hr, hw]

/-- The four outcomes of `_download_file` with their return values: skip, failure before
the open, failure after the open created the file, success. -/
theorem downloadFile_pair_cases (c : Crawler) (w : World) (o : String) (st : CrawlerState)
    (u : String) :
    downloadFile c w o st u = (false, st) ∨
    ((downloadFile c w o st u).1 = false ∧
      (downloadFile c w o st u).2 = { st with log := st.log ++ [Event.downloadAttempt u] }) ∨
    ((downloadFile c w o st u).1 = false ∧
      (downloadFile c w o st u).2 =
        { st with log := st.log ++ [Event.downloadAttempt u],
                  fs := (o ++ "/" ++ downloadFileName c st u) :: st.fs }) ∨
    downloadFile c w o st u =
      (true,
        { st with
          log := st.log ++ [Event.downloadAttempt u],
          fs := (o ++ "/" ++ downloadFileName c st u) :: st.fs,
          downloadedFiles := u :: st.downloadedFiles }) := by
  simp only [downloadFile, downloadFileBody]
  split_ifs with h
  · exact Or.inl rfl
  · cases hn : w.fileNet u with
    | error e => simp [hn]
    | ok v =>
      cases ho : w.fileOpen (o ++ "/" ++ downloadFileName c st u) with
      | error e => simp [hn, ho]
      | ok v' =>
        cases hr : w.fileRead u with
        | error e => simp [hn, ho, hr]
        | ok v'' =>
          cases hw : w.fileWrite (o ++ "/" ++ downloadFileName c st u) with
          | error e => simp [hn, ho, hr, hw]
          | ok v''' => simp [hn, ho, hr, hw]

/-- A non-skipped download attempt with a failing network call, exactly: the failure
happens before the open, so no file is created. -/
theorem downloadFile_netError_noskip (c : Crawler) (w : World) (o : String)
    (st : CrawlerState) (u : String) (e : PyErr) (hn : w.fileNet u = Except.error e)
    (hfs : (o ++ "/" ++ downloadFileName c st u) ∉ st.fs) (hd : u ∉ st.downloadedFiles) :
    downloadFile c w o st u = (false, { st with log := st.log ++ [Event.downloadAttempt u] }) := by
  simp only [downloadFile, downloadFileBody]
  rw [if_neg (by push_neg; exact ⟨hfs, hd⟩)]
  simp [hn]

/-- A non-skipped download attempt whose body read fails, exactly: the open already
created the destination file, which stays on disk. -/
theorem downloadFile_readError_noskip (c : Crawler) (w : World) (o : String)
    (st : CrawlerState) (u : String) (e : PyErr) (hn : w.fileNet u = Except.ok ())
    (ho : w.fileOpen (o ++ "/" ++ downloadFileName c st u) = Except.ok ())
    (hr : w.fileRead u = Except.error e)
    (hfs : (o ++ "/" ++ downloadFileName c st u) ∉ st.fs) (hd : u ∉ st.downloadedFiles) :
    downloadFile c w o st u =
      (false, { st with log := st.log ++ [Event.downloadAttempt u],
                        fs := (o ++ "/" ++ downloadFileName c st u) :: st.fs }) := by
  simp only [downloadFile, downloadFileBody]
  rw [if_neg (by push_neg; exact ⟨hfs, hd⟩)]
  simp [hn, ho, hr]

/-- A download attempt that hits the `filepath.exists()` / already-downloaded skip:
returns `False` immediately, no network call, no mutation. -/
theorem downloadFile_skip (c : Crawler) (w : World) (o : String) (st : CrawlerState)
    (u : String) (h : (o ++ "/" ++ downloadFileName c st u) ∈ st.fs ∨ u ∈ st.downloadedFiles) :
    downloadFile c w o st u = (false, st) := by
  simp only [downloadFile, downloadFileBody]
  rw [if_pos h]

/-- The page-candidate list of `_extract_links` does not depend on the crawler state. -/
theorem extractLinksAux_snd (c : Crawler) (st st' : CrawlerState) (b : String)
    (ts : List Tag) : (extractLinksAux c st b ts).2 = (extractLinksAux c st' b ts).2 := by
  induction ts with
  | nil => rfl
  | cons t ts ih =>
    simp only [extractLinksAux]
    by_cases h1 : t.name ∈ linkTagNames
    · rw [if_pos h1, if_pos h1]
      cases hg : getLink t with
      | none => exact ih
      | some link =>
        dsimp only
        by_cases h2 : isDownloadableFile c (urljoin b link) = true
        · rw [if_pos h2, if_pos h2]
          by_cases h3 : urljoin b link ∈ st.downloadedFiles <;>
            by_cases h4 : urljoin b link ∈ st'.downloadedFiles <;>
              simp [h3, h4, ih]
        · rw [if_neg h2, if_neg h2]
          by_cases h3 : t.name = "a" <;> simp [h3, ih]
    · rw [if_neg h1, if_neg h1]; exact ih

/-- `_extract_links` reads the crawler state only through `downloaded_files`. -/
theorem extractLinksAux_congr (c : Crawler) (st st' : CrawlerState) (b : String)
    (ts : List Tag) (h : st.downloadedFiles = st'.downloadedFiles) :
    extractLinksAux c st b ts = extractLinksAux c st' b ts := by
  induction ts with
  | nil => rfl
  | cons t ts ih =>
    simp only [extractLinksAux]
    rw [ih, h]

/-! ## Fixtures for witnesses -/

/-- A concrete crawler configuration used to instantiate the claim theorems. -/
def witCrawler : Crawler :=
  { startUrl := "http://h/"
    fileExtensions := [".gif"]
    maxDepth := 2
    maxPages := 100
    stayOnDomain := true
    respectRobots := false
    maxConcurrent := 10
    downloadAllFiles := false
    contentPattern := none
    robotParser := none }

/-- A concrete environment whose page fetches time out and whose file fetches fail. -/
def witWorld : World :=
  { pageResult := fun _ => Except.error PyErr.timeoutError
    fileNet := fun _ => Except.error PyErr.clientError
    fileOpen := fun _ => Except.ok ()
    fileRead := fun _ => Except.ok ()
    fileWrite := fun _ => Except.ok ()
    robotsRead := fun _ => Except.error PyErr.clientError }

/-! ## C1 — page budget (amended) -/

/-- C1 (amended): every reachable state satisfies
`pagesCrawled = number of page-fetches started ≤ maxPages - 1 + maxConcurrent`.
The counter is incremented when the fetch task begins executing (before its network
await), so the budget check of the dispatch loop can over-admit by up to
`maxConcurrent - 1` fetches; the original bound `maxPages` is refuted by
`c1_counterexample`. -/
theorem c1_budget_amended {c : Crawler} {w : World} {o : String} {s : SysState}
    (h : Reachable c w o s) :
    (fetchUrls s.st.log).length = s.st.pagesCrawled ∧
    (fetchUrls s.st.log).length ≤ c.maxPages - 1 + c.maxConcurrent := by
  have hi := reachable_inv h
  have hlen : (fetchUrls s.st.log).length = (fetchEvents s.st.log).length := by
    simp [fetchUrls]
  constructor
  · rw [hlen]; exact hi.sinv.pagesEq
  · rw [hlen, hi.sinv.pagesEq]
    have := hi.budget
    omega

/-- Witness for C1 (amended) at the initial state of a concrete crawl. -/
theorem c1_witness :
    (fetchUrls (initSys witCrawler).st.log).length = (initSys witCrawler).st.pagesCrawled ∧
    (fetchUrls (initSys witCrawler).st.log).length
      ≤ witCrawler.maxPages - 1 + witCrawler.maxConcurrent :=
  c1_budget_amended (@Reachable.start witCrawler witWorld "out")

/-! ## C2 — dedup (amended) -/

/-- C2 (amended): provided the seed URL carries no fragment, each distinct
fragment-stripped URL is fetched at most once and appended to the frontier at most once
over the whole crawl, and the enqueue gate rejects, without any mutation, a URL whose
stripped form is already in `visited_urls` or `queued_urls`.  The fragment-free proviso is
forced by `c2_counterexample`: the seed is enqueued and marked visited unstripped. -/
theorem c2_dedup_amended {c : Crawler} {w : World} {o : String} {s : SysState}
    (h : Reachable c w o s) (hseed : urldefrag c.startUrl = c.startUrl) :
    ((fetchUrls s.st.log).map urldefrag).Nodup ∧
    ((enqUrls s.st.log).map urldefrag).Nodup ∧
    (∀ (st2 : CrawlerState) (d : Nat) (u : String),
      (urldefrag u ∈ st2.visited ∨ urldefrag u ∈ st2.queued) → enqueueOne st2 d u = st2) := by
  have hi := reachable_inv h
  have hff := reachable_queuedFF h hseed
  have hfix : ∀ u ∈ fetchUrls s.st.log, urldefrag u = u :=
    fun u hu => hff u (hi.sinv.fq u hu)
  have hfixe : ∀ u ∈ enqUrls s.st.log, urldefrag u = u :=
    fun u hu => hff u (hi.sinv.enq_q u hu)
  refine ⟨?_, ?_, fun st2 d u hm => enqueueOne_rejected st2 d u hm⟩
  · rw [list_map_fix hfix]
    exact List.Nodup.of_append_left hi.sinv.nodup
  · rw [list_map_fix hfixe]
    exact hi.sinv.enodup

/-- Witness for C2 (amended) at the initial state of a concrete crawl with a
fragment-free seed. -/
theorem c2_witness :
    ((fetchUrls (initSys witCrawler).st.log).map urldefrag).Nodup ∧
    ((enqUrls (initSys witCrawler).st.log).map urldefrag).Nodup ∧
    (∀ (st2 : CrawlerState) (d : Nat) (u : String),
      (urldefrag u ∈ st2.visited ∨ urldefrag u ∈ st2.queued) → enqueueOne st2 d u = st2) :=
  c2_dedup_amended (@Reachable.start witCrawler witWorld "out") (by decide)

/-! ## C3 — depth bound -/

/-- C3: in every reachable state, every page fetch ever started has depth at most
`max_depth`, and a page fetched at depth exactly `max_depth` yields no enqueued targets:
the post-fetch remainder leaves `to_visit`, `queued_urls` and the enqueue log unchanged. -/
theorem c3_depth_bound {c : Crawler} {w : World} {o : String} {s : SysState}
    (h : Reachable c w o s) :
    (∀ p ∈ fetchEvents s.st.log, p.2 ≤ c.maxDepth) ∧
    (∀ (st2 : CrawlerState) (u : String),
      (fetchPageRest c w o st2 u c.maxDepth).toVisit = st2.toVisit ∧
      (fetchPageRest c w o st2 u c.maxDepth).queued = st2.queued ∧
      enqUrls (fetchPageRest c w o st2 u c.maxDepth).log = enqUrls st2.log) := by
  constructor
  · exact reachable_fetch_prop (fun _ d => d ≤ c.maxDepth)
      (fun st u d hv => (isValidUrl_spec c st u d hv).2.1) h
  · intro st2 u
    exact fetchPageRest_no_enqueue_at_max c w o st2 u

/-- Witness for C3 at the initial state of a concrete crawl. -/
theorem c3_witness :
    (∀ p ∈ fetchEvents (initSys witCrawler).st.log, p.2 ≤ witCrawler.maxDepth) ∧
    (∀ (st2 : CrawlerState) (u : String),
      (fetchPageRest witCrawler witWorld "out" st2 u witCrawler.maxDepth).toVisit
        = st2.toVisit ∧
      (fetchPageRest witCrawler witWorld "out" st2 u witCrawler.maxDepth).queued
        = st2.queued ∧
      enqUrls (fetchPageRest witCrawler witWorld "out" st2 u witCrawler.maxDepth).log
        = enqUrls st2.log) :=
  c3_depth_bound (@Reachable.start witCrawler witWorld "out")

/-! ## C4 — domain restriction (amended) -/

/-- C4 (amended): with the same-domain restriction enabled, every page fetch ever started
targets the seed's host — the validity gate compares `urlparse(url).netloc` against
`start_domain` before any fetch.  File downloads are not domain-checked
(`c4_counterexample` exhibits a crawl that downloads from a foreign host). -/
theorem c4_domain_amended {c : Crawler} {w : World} {o : String} {s : SysState}
    (h : Reachable c w o s) (hdom : c.stayOnDomain = true) :
    ∀ p ∈ fetchEvents s.st.log, (parseUrl p.1).netloc = startDomain c :=
  reachable_fetch_prop (fun u _ => (parseUrl u).netloc = startDomain c)
    (fun st u d hv => (isValidUrl_spec c st u d hv).2.2.1 hdom) h

/-- Witness for C4 (amended) at the initial state of a concrete same-domain crawl. -/
theorem c4_witness :
    witCrawler.stayOnDomain = true ∧
    (∀ p ∈ fetchEvents (initSys witCrawler).st.log,
      (parseUrl p.1).netloc = startDomain witCrawler) :=
  ⟨rfl, c4_domain_amended (@Reachable.start witCrawler witWorld "out") rfl⟩

/-! ## C6 — concurrency bound -/

/-- C6: in every reachable state of the scheduler, at most `max_concurrent` page fetches
are in flight: the dispatch loop never grows the task list past `max_concurrent`, and
in-flight fetches are a subset of the tasks. -/
theorem c6_concurrency_bound {c : Crawler} {w : World} {o : String} {s : SysState}
    (h : Reachable c w o s) : inFlightCount s.tasks ≤ c.maxConcurrent :=
  le_trans (List.length_filter_le _ _) (reachable_inv h).lenB

/-- Witness for C6 at the initial state of a concrete crawl. -/
theorem c6_witness : inFlightCount (initSys witCrawler).tasks ≤ witCrawler.maxConcurrent :=
  c6_concurrency_bound (@Reachable.start witCrawler witWorld "out")

/-! ## C7 — robots failure is open -/

/-- C7: the robots gate permits fetching whenever the feature is disabled (no parser is
configured), the robots document could not be read (setup leaves the parser as `None`),
or the permission check itself raises (modelled by the parser returning no verdict):
robots unavailability never blocks a fetch. -/
theorem c7_robots_fail_open :
    (∀ (c : Crawler) (url : String), c.robotParser = none → canFetch c url = true) ∧
    (∀ (c : Crawler) (url : String) (f : String → Option Bool),
      c.robotParser = some f → f url = none → canFetch c url = true) ∧
    (∀ (su : String) (exts : List String) (a b : Nat) (sd : Bool) (mc : Nat)
       (pat : Option (String → Bool)) (da : Bool) (w : World),
      (mkCrawler su exts a b sd false mc pat da w).robotParser = none) ∧
    (∀ (su : String) (exts : List String) (a b : Nat) (sd : Bool) (mc : Nat)
       (pat : Option (String → Bool)) (da : Bool) (w : World) (e : PyErr),
      w.robotsRead (robotsUrl su) = Except.error e →
      (mkCrawler su exts a b sd true mc pat da w).robotParser = none) := by
  refine ⟨?_, ?_, ?_, ?_⟩
  · intro c url h
    simp [canFetch, h]
  · intro c url f hf hn
    simp [canFetch, hf, hn]
  · intro su exts a b sd mc pat da w
    simp [mkCrawler]
  · intro su exts a b sd mc pat da w e he
    simp [mkCrawler, setupRobotsParser, he]

/-- Witness for C7 at concrete inputs: the disabled gate and the failed-setup crawler
both permit an arbitrary URL. -/
theorem c7_witness :
    canFetch witCrawler "http://h/private/x" = true ∧
    (mkCrawler "http://h/" [".gif"] 2 100 true true 10 none false witWorld).robotParser
      = none :=
  ⟨c7_robots_fail_open.1 witCrawler "http://h/private/x" rfl,
   c7_robots_fail_open.2.2.2 "http://h/" [".gif"] 2 100 true 10 none false witWorld
     PyErr.clientError rfl⟩

/-! ## C8 — error containment -/

/-- C8: an error inside a single page fetch is caught at that fetch's own boundary —
the state is exactly what it was at the raise point, the scheduler still takes a normal
`complete` step, and the sibling tasks are untouched; an error inside a single file
download likewise only makes that download return `False`, leaving the shared state
unchanged.  No error value ever escapes to the crawl loop. -/
theorem c8_error_containment :
    ∀ (c : Crawler) (w : World) (o : String) (st : CrawlerState) (u : String) (d : Nat)
      (e : PyErr), w.pageResult u = Except.error e →
      (fetchPageRest c w o st u d = st ∧
       (∀ (pre post : List TaskState) (m : Mode), m ≠ Mode.dispatching →
         Step c w o ⟨st, pre ++ TaskState.inFlight u d :: post, m⟩
           ⟨st, pre ++ TaskState.done :: post, m⟩) ∧
       (∀ (st2 : CrawlerState) (u2 : String) (e2 : PyErr),
         w.fileNet u2 = Except.error e2 →
         (downloadFile c w o st2 u2).1 = false ∧
         (downloadFile c w o st2 u2).2.downloadedFiles = st2.downloadedFiles ∧
         (downloadFile c w o st2 u2).2.visited = st2.visited ∧
         (downloadFile c w o st2 u2).2.queued = st2.queued ∧
         (downloadFile c w o st2 u2).2.toVisit = st2.toVisit)) := by
  intro c w o st u d e he
  have hrest := fetchPageRest_error c w o st u d e he
  refine ⟨hrest, ?_, ?_⟩
  · intro pre post m hm
    have hc := @Step.complete c w o st pre post u d m hm
    rw [hrest] at hc
    exact hc
  · intro st2 u2 e2 hn
    have hd := downloadFile_netError c w o st2 u2 e2 hn
    refine ⟨hd.1, ?_, ?_, ?_, ?_⟩ <;> rcases hd.2 with h2 | h2 <;> simp [h2]

/-- Witness for C8: a concrete timed-out page fetch is contained. -/
theorem c8_witness :
    fetchPageRest witCrawler witWorld "out" (initState "http://h/") "http://h/" 0
      = initState "http://h/" ∧
    (∀ (pre post : List TaskState) (m : Mode), m ≠ Mode.dispatching →
      Step witCrawler witWorld "out"
        ⟨initState "http://h/", pre ++ TaskState.inFlight "http://h/" 0 :: post, m⟩
        ⟨initState "http://h/", pre ++ TaskState.done :: post, m⟩) ∧
    (∀ (st2 : CrawlerState) (u2 : String) (e2 : PyErr),
      witWorld.fileNet u2 = Except.error e2 →
      (downloadFile witCrawler witWorld "out" st2 u2).1 = false ∧
      (downloadFile witCrawler witWorld "out" st2 u2).2.downloadedFiles
        = st2.downloadedFiles ∧
      (downloadFile witCrawler witWorld "out" st2 u2).2.visited = st2.visited ∧
      (downloadFile witCrawler witWorld "out" st2 u2).2.queued = st2.queued ∧
      (downloadFile witCrawler witWorld "out" st2 u2).2.toVisit = st2.toVisit) :=
  c8_error_containment witCrawler witWorld "out" (initState "http://h/") "http://h/" 0
    PyErr.timeoutError rfl

/-! ## C10 — failed downloads and the dedup set (corrected) -/

/-- C10 (amended): every failed download returns `False` and leaves `downloaded_files`
unchanged — the URL joins the set only on the success path, after the write — so
`files_downloaded` counts only successful downloads.  But retry eligibility holds only
for failures before the destination file is opened (connection or HTTP-status errors):
`aiofiles.open` creates the file before the body is read, so a body-read or write
failure leaves the file on disk and every later attempt for the same URL returns at the
`filepath.exists()` check without a network call (`c10_counterexample`). -/
theorem c10_download_failure :
    ∀ (c : Crawler) (w : World) (o : String) (st : CrawlerState) (u : String) (e : PyErr),
    (w.fileNet u = Except.error e →
      (downloadFile c w o st u).1 = false ∧
      (downloadFile c w o st u).2.downloadedFiles = st.downloadedFiles ∧
      (downloadFile c w o st u).2.fs = st.fs ∧
      (crawlStats (downloadFile c w o st u).2).2.1 = (crawlStats st).2.1) ∧
    (w.fileNet u = Except.ok () →
      w.fileOpen (o ++ "/" ++ downloadFileName c st u) = Except.ok () →
      w.fileRead u = Except.error e →
      (downloadFile c w o st u).1 = false ∧
      (downloadFile c w o st u).2.downloadedFiles = st.downloadedFiles) ∧
    (w.fileNet u = Except.ok () →
      w.fileOpen (o ++ "/" ++ downloadFileName c st u) = Except.ok () →
      w.fileRead u = Except.ok () →
      w.fileWrite (o ++ "/" ++ downloadFileName c st u) = Except.error e →
      (downloadFile c w o st u).1 = false ∧
      (downloadFile c w o st u).2.downloadedFiles = st.downloadedFiles) ∧
    ((downloadFile c w o st u).2.downloadedFiles ≠ st.downloadedFiles →
      (downloadFile c w o st u).1 = true ∧
      (downloadFile c w o st u).2.downloadedFiles = u :: st.downloadedFiles) ∧
    ((downloadFile c w o st u).1 = false →
      (crawlStats (downloadFile c w o st u).2).2.1 = (crawlStats st).2.1) ∧
    (w.fileNet u = Except.error e →
      (o ++ "/" ++ downloadFileName c st u) ∉ st.fs → u ∉ st.downloadedFiles →
      u ∉ (downloadFile c w o st u).2.downloadedFiles ∧
      (downloadFile c w o st u).2.log = st.log ++ [Event.downloadAttempt u] ∧
      (downloadFile c w o ((downloadFile c w o st u).2) u).2.log
        = (downloadFile c w o st u).2.log ++ [Event.downloadAttempt u]) ∧
    (w.fileNet u = Except.ok () →
      w.fileOpen (o ++ "/" ++ downloadFileName c st u) = Except.ok () →
      w.fileRead u = Except.error e →
      (o ++ "/" ++ downloadFileName c st u) ∉ st.fs → u ∉ st.downloadedFiles →
      u ∉ (downloadFile c w o st u).2.downloadedFiles ∧
      downloadFile c w o ((downloadFile c w o st u).2) u
        = (false, (downloadFile c w o st u).2)) := by
  intro c w o st u e
  refine ⟨?_, ?_, ?_, ?_, ?_, ?_, ?_⟩
  · intro hn
    have hd := downloadFile_netError c w o st u e hn
    refine ⟨hd.1, ?_, ?_, ?_⟩ <;> rcases hd.2 with h2 | h2 <;> simp [h2, crawlStats]
  · intro hn ho hr
    have hd := downloadFile_readError c w o st u e hn ho hr
    refine ⟨hd.1, ?_⟩
    rcases hd.2 with h2 | h2 <;> simp [h2]
  · intro hn ho hr hw
    have hd := downloadFile_writeError c w o st u e hn ho hr hw
    refine ⟨hd.1, ?_⟩
    rcases hd.2 with h2 | h2 <;> simp [h2]
  · intro hne
    rcases downloadFile_pair_cases c w o st u with h2 | h2 | h2 | h2
    · exact absurd (by simp [h2]) hne
    · exact absurd (by simp [h2.2]) hne
    · exact absurd (by simp [h2.2]) hne
    · exact ⟨by simp [h2], by simp [h2]⟩
  · intro hfalse
    rcases downloadFile_pair_cases c w o st u with h2 | h2 | h2 | h2
    · simp [h2, crawlStats]
    · simp [h2.2, crawlStats]
    · simp [h2.2, crawlStats]
    · rw [h2] at hfalse
      exact absurd hfalse (by simp)
  · intro hn hfs hd
    have heq := downloadFile_netError_noskip c w o st u e hn hfs hd
    have hdown : (downloadFile c w o st u).2.downloadedFiles = st.downloadedFiles := by
      simp [heq]
    refine ⟨by rw [hdown]; exact hd, by simp [heq], ?_⟩
    have heq2 := downloadFile_netError_noskip c w o
      ({ st with log := st.log ++ [Event.downloadAttempt u] }) u e hn hfs hd
    rw [heq, heq2]
  · intro hn ho hr hfs hd
    have heq := downloadFile_readError_noskip c w o st u e hn ho hr hfs hd
    have hdown : (downloadFile c w o st u).2.downloadedFiles = st.downloadedFiles := by
      simp [heq]
    refine ⟨by rw [hdown]; exact hd, ?_⟩
    rw [heq]
    exact downloadFile_skip c w o _ u (Or.inl (List.mem_cons_self _ _))

/-- The crawler of the C10 scenario. -/
def cexC10crawler : Crawler :=
  { startUrl := "http://h/"
    fileExtensions := [".gif"]
    maxDepth := 2
    maxPages := 100
    stayOnDomain := true
    respectRobots := false
    maxConcurrent := 10
    downloadAllFiles := false
    contentPattern := none
    robotParser := none }

/-- An environment where the connection and the open succeed but the body read fails:
the destination file is created and then the transfer dies. -/
def cexC10world : World :=
  { pageResult := fun _ => Except.error PyErr.clientError
    fileNet := fun _ => Except.ok ()
    fileOpen := fun _ => Except.ok ()
    fileRead := fun _ => Except.error PyErr.clientError
    fileWrite := fun _ => Except.ok ()
    robotsRead := fun _ => Except.error PyErr.clientError }

/-- Counterexample for C10 as stated: a download of `http://h/x.gif` whose body read
fails returns `False` and leaves `downloaded_files` unchanged — but the open already
created `out/x.gif`, so the retry of the rediscovered URL returns unchanged at the
`filepath.exists()` check: no second network attempt is ever made.  The failed URL does
not remain eligible for a retry. -/
theorem c10_counterexample :
    (downloadFile cexC10crawler cexC10world "out" (initState "http://h/")
        "http://h/x.gif").1 = false ∧
    "http://h/x.gif" ∉ (downloadFile cexC10crawler cexC10world "out"
        (initState "http://h/") "http://h/x.gif").2.downloadedFiles ∧
    downloadUrls (downloadFile cexC10crawler cexC10world "out" (initState "http://h/")
        "http://h/x.gif").2.log = ["http://h/x.gif"] ∧
    downloadFile cexC10crawler cexC10world "out"
        ((downloadFile cexC10crawler cexC10world "out" (initState "http://h/")
          "http://h/x.gif").2) "http://h/x.gif"
      = (false, (downloadFile cexC10crawler cexC10world "out" (initState "http://h/")
          "http://h/x.gif").2) := by
  decide

/-- Witness for C10 (amended): a concrete pre-open network failure leaves the dedup set
and filesystem unchanged and stays retryable, and a concrete post-open read failure
leaves the dedup set unchanged. -/
theorem c10_witness :
    ((downloadFile witCrawler witWorld "out" (initState "http://h/") "http://h/x.gif").1
       = false ∧
     (downloadFile witCrawler witWorld "out" (initState "http://h/")
        "http://h/x.gif").2.downloadedFiles = (initState "http://h/").downloadedFiles ∧
     (downloadFile witCrawler witWorld "out" (initState "http://h/")
        "http://h/x.gif").2.fs = (initState "http://h/").fs ∧
     (crawlStats (downloadFile witCrawler witWorld "out" (initState "http://h/")
        "http://h/x.gif").2).2.1 = (crawlStats (initState "http://h/")).2.1) ∧
    ("http://h/x.gif" ∉ (downloadFile witCrawler witWorld "out" (initState "http://h/")
        "http://h/x.gif").2.downloadedFiles ∧
     (downloadFile witCrawler witWorld "out" (initState "http://h/")
        "http://h/x.gif").2.log
       = (initState "http://h/").log ++ [Event.downloadAttempt "http://h/x.gif"] ∧
     (downloadFile witCrawler witWorld "out"
        ((downloadFile witCrawler witWorld "out" (initState "http://h/")
          "http://h/x.gif").2) "http://h/x.gif").2.log
       = (downloadFile witCrawler witWorld "out" (initState "http://h/")
          "http://h/x.gif").2.log ++ [Event.downloadAttempt "http://h/x.gif"]) ∧
    ((downloadFile cexC10crawler cexC10world "out" (initState "http://h/")
        "http://h/x.gif").1 = false ∧
     (downloadFile cexC10crawler cexC10world "out" (initState "http://h/")
        "http://h/x.gif").2.downloadedFiles = (initState "http://h/").downloadedFiles) :=
  ⟨(c10_download_failure witCrawler witWorld "out" (initState "http://h/") "http://h/x.gif"
      PyErr.clientError).1 rfl,
   (c10_download_failure witCrawler witWorld "out" (initState "http://h/") "http://h/x.gif"
      PyErr.clientError).2.2.2.2.2.1 rfl (by decide) (by decide),
   (c10_download_failure cexC10crawler cexC10world "out" (initState "http://h/")
      "http://h/x.gif" PyErr.clientError).2.1 rfl rfl rfl⟩

/-! ## C5 — extraction purity (corrected) -/

/-- C5 (amended): the page-candidate list of `_extract_links` is a pure function of the
document, the base URL and the configuration; the whole file/page partition is pure
provided `downloaded_files` is unchanged between the two extractions.  Full purity in the
crawler state is refuted by `c5_counterexample`: the file list is filtered against the
mutable `downloaded_files` set. -/
theorem c5_extraction_amended :
    ∀ (c : Crawler) (st st' : CrawlerState) (tags : List Tag) (baseUrl : String),
    (extractLinks c st tags baseUrl).2 = (extractLinks c st' tags baseUrl).2 ∧
    (st.downloadedFiles = st'.downloadedFiles →
      extractLinks c st tags baseUrl = extractLinks c st' tags baseUrl) := by
  intro c st st' tags baseUrl
  exact ⟨extractLinksAux_snd c st st' baseUrl tags,
         fun h => extractLinksAux_congr c st st' baseUrl tags h⟩

/-- The crawler of the C5 scenario. -/
def cexC5crawler : Crawler :=
  { startUrl := "http://h/"
    fileExtensions := [".gif"]
    maxDepth := 1
    maxPages := 100
    stayOnDomain := true
    respectRobots := false
    maxConcurrent := 10
    downloadAllFiles := false
    contentPattern := none
    robotParser := none }

/-- An environment where every network call and write succeeds. -/
def cexC5world : World :=
  { pageResult := fun _ => Except.error PyErr.clientError
    fileNet := fun _ => Except.ok ()
    fileOpen := fun _ => Except.ok ()
    fileRead := fun _ => Except.ok ()
    fileWrite := fun _ => Except.ok ()
    robotsRead := fun _ => Except.error PyErr.clientError }

/-- A document with a single `<img src="http://h/x.gif">`. -/
def cexC5doc : List Tag := [{ name := "img", href := none, src := some "http://h/x.gif" }]

/-- Counterexample for C5 as stated: extracting the same document with the same base URL
before and after `_download_file` succeeds on the listed file yields different file
lists — extraction is not a pure function of the document and base URL alone. -/
theorem c5_counterexample :
    extractLinks cexC5crawler (initState "http://h/") cexC5doc "http://h/"
      ≠ extractLinks cexC5crawler
          (downloadFile cexC5crawler cexC5world "out" (initState "http://h/")
            "http://h/x.gif").2 cexC5doc "http://h/" := by
  decide

/-- Witness for C5 (amended) at concrete states that share `downloaded_files`. -/
theorem c5_witness :
    (extractLinks cexC5crawler (initState "http://h/") cexC5doc "http://h/").2
      = (extractLinks cexC5crawler (initState "http://h/a") cexC5doc "http://h/").2 ∧
    ((initState "http://h/").downloadedFiles = (initState "http://h/a").downloadedFiles →
      extractLinks cexC5crawler (initState "http://h/") cexC5doc "http://h/"
        = extractLinks cexC5crawler (initState "http://h/a") cexC5doc "http://h/") :=
  c5_extraction_amended cexC5crawler (initState "http://h/") (initState "http://h/a")
    cexC5doc "http://h/"

/-! ## C9 — extension selection on the whole URL string -/

/-- A crawler configured to download `.gif` files. -/
def c9gif : Crawler :=
  { startUrl := "http://h/"
    fileExtensions := [".gif"]
    maxDepth := 2
    maxPages := 100
    stayOnDomain := true
    respectRobots := false
    maxConcurrent := 10
    downloadAllFiles := false
    contentPattern := none
    robotParser := none }

/-- C9: in extension-selection mode, a URL is classified as downloadable exactly when the
lowercased full URL string ends with one of the configured lowercased extensions; the
test sees the whole URL, not only its path: a query string ending in `.gif` is classified
as a file, and a `.gif` path followed by a query string is not. -/
theorem c9_extension_classification :
    (∀ (su : String) (exts : List String) (a b : Nat) (sd rr : Bool) (mc : Nat)
       (pat : Option (String → Bool)) (w : World) (url : String),
      isDownloadableFile (mkCrawler su exts a b sd rr mc pat false w) url
        = exts.any (fun ext => strEndsWith (strToLower url) (strToLower ext))) ∧
    isDownloadableFile c9gif "http://h/page?img=.gif" = true ∧
    isDownloadableFile c9gif "http://h/a.gif?x=1" = false := by
  refine ⟨?_, by decide, by decide⟩
  intro su exts a b sd rr mc pat w url
  simp only [isDownloadableFile, mkCrawler, List.any_map]
  rfl

/-! ## Concrete crawl traces refuting C1, C2 and C4 as stated -/

theorem reachable_of_eq {c : Crawler} {w : World} {o : String} {s s' : SysState}
    (h : Reachable c w o s) (he : s = s') : Reachable c w o s' := he ▸ h

/-- The crawler of the C1 scenario: page budget 2, concurrency 2. -/
def cexC1crawler : Crawler :=
  { startUrl := "http://h/"
    fileExtensions := [".gif"]
    maxDepth := 1
    maxPages := 2
    stayOnDomain := true
    respectRobots := false
    maxConcurrent := 2
    downloadAllFiles := false
    contentPattern := none
    robotParser := none }

/-- The seed page links to two further pages; every other page is empty. -/
def cexC1world : World :=
  { pageResult := fun u =>
      if u = "http://h/" then
        Except.ok { text := "",
                    tags := [{ name := "a", href := some "http://h/a", src := none },
                             { name := "a", href := some "http://h/b", src := none }] }
      else Except.ok { text := "", tags := [] }
    fileNet := fun _ => Except.ok ()
    fileOpen := fun _ => Except.ok ()
    fileRead := fun _ => Except.ok ()
    fileWrite := fun _ => Except.ok ()
    robotsRead := fun _ => Except.error PyErr.clientError }

def cexC1st1 : CrawlerState :=
  { visited := [], queued := ["http://h/"], downloadedFiles := [], savedPages := []
    toVisit := [], pagesCrawled := 0, fs := [], log := [Event.enq "http://h/"] }

def cexC1st2 : CrawlerState :=
  { cexC1st1 with
    visited := ["http://h/"]
    pagesCrawled := 1
    log := [Event.enq "http://h/", Event.fetchStart "http://h/" 0] }

def cexC1st3 : CrawlerState :=
  { visited := ["http://h/"]
    queued := ["http://h/b", "http://h/a", "http://h/"]
    downloadedFiles := [], savedPages := []
    toVisit := [("http://h/a", 1), ("http://h/b", 1)]
    pagesCrawled := 1, fs := []
    log := [Event.enq "http://h/", Event.fetchStart "http://h/" 0,
            Event.enq "http://h/a", Event.enq "http://h/b"] }

def cexC1st5 : CrawlerState := { cexC1st3 with toVisit := [] }

def cexC1st6 : CrawlerState :=
  { cexC1st5 with
    visited := ["http://h/a", "http://h/"]
    pagesCrawled := 2
    log := [Event.enq "http://h/", Event.fetchStart "http://h/" 0,
            Event.enq "http://h/a", Event.enq "http://h/b",
            Event.fetchStart "http://h/a" 1] }

def cexC1st7 : CrawlerState :=
  { cexC1st6 with
    visited := ["http://h/b", "http://h/a", "http://h/"]
    pagesCrawled := 3
    log := [Event.enq "http://h/", Event.fetchStart "http://h/" 0,
            Event.enq "http://h/a", Event.enq "http://h/b",
            Event.fetchStart "http://h/a" 1, Event.fetchStart "http://h/b" 1] }

/-- Counterexample for C1 as stated: a crawl with `max_pages = 2` and
`max_concurrent = 2` reaches a state with three page fetches started (and
`pages_crawled = 3`).  After the seed page completes, the dispatch loop creates tasks for
both discovered pages while `pages_crawled` is still 1 — `create_task` does not run the
coroutine, so the counter lags and the budget check over-admits. -/
theorem c1_counterexample :
    ∃ s : SysState, Reachable cexC1crawler cexC1world "out" s ∧
      cexC1crawler.maxPages = 2 ∧
      cexC1crawler.maxPages < (fetchUrls s.st.log).length ∧
      s.st.pagesCrawled = (fetchUrls s.st.log).length := by
  refine ⟨⟨cexC1st7, [TaskState.inFlight "http://h/a" 1, TaskState.inFlight "http://h/b" 1],
          Mode.waiting⟩, ?_, rfl, by decide, by decide⟩
  have h1 : Reachable cexC1crawler cexC1world "out"
      ⟨cexC1st1, [TaskState.created "http://h/" 0], Mode.waiting⟩ :=
    reachable_of_eq
      (Reachable.step Reachable.start
        (@Step.dispatch cexC1crawler cexC1world "out" (initState "http://h/") [] (by decide)))
      (by decide)
  have h2 : Reachable cexC1crawler cexC1world "out"
      ⟨cexC1st2, [TaskState.inFlight "http://h/" 0], Mode.waiting⟩ :=
    Reachable.step h1
      (@Step.startValid cexC1crawler cexC1world "out" cexC1st1 cexC1st2 [] []
        "http://h/" 0 Mode.waiting (by decide) (by decide))
  have h3 : Reachable cexC1crawler cexC1world "out"
      ⟨cexC1st3, [TaskState.done], Mode.waiting⟩ :=
    reachable_of_eq
      (Reachable.step h2
        (@Step.complete cexC1crawler cexC1world "out" cexC1st2 [] []
          "http://h/" 0 Mode.waiting (by decide)))
      (by decide)
  have h4 : Reachable cexC1crawler cexC1world "out"
      ⟨cexC1st3, [], Mode.dispatching⟩ :=
    reachable_of_eq
      (Reachable.step h3
        (@Step.wake cexC1crawler cexC1world "out" cexC1st3 [TaskState.done] (by decide)))
      (by decide)
  have h5 : Reachable cexC1crawler cexC1world "out"
      ⟨cexC1st5, [TaskState.created "http://h/a" 1, TaskState.created "http://h/b" 1],
       Mode.waiting⟩ :=
    reachable_of_eq
      (Reachable.step h4
        (@Step.dispatch cexC1crawler cexC1world "out" cexC1st3 [] (by decide)))
      (by decide)
  have h6 : Reachable cexC1crawler cexC1world "out"
      ⟨cexC1st6, [TaskState.inFlight "http://h/a" 1, TaskState.created "http://h/b" 1],
       Mode.waiting⟩ :=
    Reachable.step h5
      (@Step.startValid cexC1crawler cexC1world "out" cexC1st5 cexC1st6 []
        [TaskState.created "http://h/b" 1] "http://h/a" 1 Mode.waiting (by decide) (by decide))
  exact Reachable.step h6
    (@Step.startValid cexC1crawler cexC1world "out" cexC1st6 cexC1st7
      [TaskState.inFlight "http://h/a" 1] [] "http://h/b" 1 Mode.waiting
      (by decide) (by decide))

/-- The crawler of the C2 scenario: the seed URL carries a fragment. -/
def cexC2crawler : Crawler :=
  { startUrl := "http://h/a#f"
    fileExtensions := [".gif"]
    maxDepth := 1
    maxPages := 10
    stayOnDomain := true
    respectRobots := false
    maxConcurrent := 2
    downloadAllFiles := false
    contentPattern := none
    robotParser := none }

/-- The seed page links to its own fragment-stripped URL. -/
def cexC2world : World :=
  { pageResult := fun u =>
      if u = "http://h/a#f" then
        Except.ok { text := "",
                    tags := [{ name := "a", href := some "http://h/a", src := none }] }
      else Except.ok { text := "", tags := [] }
    fileNet := fun _ => Except.ok ()
    fileOpen := fun _ => Except.ok ()
    fileRead := fun _ => Except.ok ()
    fileWrite := fun _ => Except.ok ()
    robotsRead := fun _ => Except.error PyErr.clientError }

def cexC2st1 : CrawlerState :=
  { visited := [], queued := ["http://h/a#f"], downloadedFiles := [], savedPages := []
    toVisit := [], pagesCrawled := 0, fs := [], log := [Event.enq "http://h/a#f"] }

def cexC2st2 : CrawlerState :=
  { cexC2st1 with
    visited := ["http://h/a#f"]
    pagesCrawled := 1
    log := [Event.enq "http://h/a#f", Event.fetchStart "http://h/a#f" 0] }

def cexC2st3 : CrawlerState :=
  { visited := ["http://h/a#f"]
    queued := ["http://h/a", "http://h/a#f"]
    downloadedFiles := [], savedPages := []
    toVisit := [("http://h/a", 1)]
    pagesCrawled := 1, fs := []
    log := [Event.enq "http://h/a#f", Event.fetchStart "http://h/a#f" 0,
            Event.enq "http://h/a"] }

def cexC2st5 : CrawlerState := { cexC2st3 with toVisit := [] }

def cexC2st6 : CrawlerState :=
  { cexC2st5 with
    visited := ["http://h/a", "http://h/a#f"]
    pagesCrawled := 2
    log := [Event.enq "http://h/a#f", Event.fetchStart "http://h/a#f" 0,
            Event.enq "http://h/a", Event.fetchStart "http://h/a" 1] }

/-- Counterexample for C2 as stated: with the seed `http://h/a#f`, the crawl fetches both
`http://h/a#f` and `http://h/a` — the same fragment-stripped URL twice — and enqueues it
twice, because `__init__` enqueues and `_fetch_page` marks visited the seed without
stripping its fragment, while the dedup gates compare stripped forms. -/
theorem c2_counterexample :
    ∃ s : SysState, Reachable cexC2crawler cexC2world "out" s ∧
      ¬ ((fetchUrls s.st.log).map urldefrag).Nodup ∧
      ¬ ((enqUrls s.st.log).map urldefrag).Nodup := by
  refine ⟨⟨cexC2st6, [TaskState.inFlight "http://h/a" 1], Mode.waiting⟩, ?_,
          by decide, by decide⟩
  have h1 : Reachable cexC2crawler cexC2world "out"
      ⟨cexC2st1, [TaskState.created "http://h/a#f" 0], Mode.waiting⟩ :=
    reachable_of_eq
      (Reachable.step Reachable.start
        (@Step.dispatch cexC2crawler cexC2world "out" (initState "http://h/a#f") []
          (by decide)))
      (by decide)
  have h2 : Reachable cexC2crawler cexC2world "out"
      ⟨cexC2st2, [TaskState.inFlight "http://h/a#f" 0], Mode.waiting⟩ :=
    Reachable.step h1
      (@Step.startValid cexC2crawler cexC2world "out" cexC2st1 cexC2st2 [] []
        "http://h/a#f" 0 Mode.waiting (by decide) (by decide))
  have h3 : Reachable cexC2crawler cexC2world "out"
      ⟨cexC2st3, [TaskState.done], Mode.waiting⟩ :=
    reachable_of_eq
      (Reachable.step h2
        (@Step.complete cexC2crawler cexC2world "out" cexC2st2 [] []
          "http://h/a#f" 0 Mode.waiting (by decide)))
      (by decide)
  have h4 : Reachable cexC2crawler cexC2world "out"
      ⟨cexC2st3, [], Mode.dispatching⟩ :=
    reachable_of_eq
      (Reachable.step h3
        (@Step.wake cexC2crawler cexC2world "out" cexC2st3 [TaskState.done] (by decide)))
      (by decide)
  have h5 : Reachable cexC2crawler cexC2world "out"
      ⟨cexC2st5, [TaskState.created "http://h/a" 1], Mode.waiting⟩ :=
    reachable_of_eq
      (Reachable.step h4
        (@Step.dispatch cexC2crawler cexC2world "out" cexC2st3 [] (by decide)))
      (by decide)
  exact Reachable.step h5
    (@Step.startValid cexC2crawler cexC2world "out" cexC2st5 cexC2st6 [] []
      "http://h/a" 1 Mode.waiting (by decide) (by decide))

/-- The crawler of the C4 scenario: same-domain restriction enabled. -/
def cexC4crawler : Crawler :=
  { startUrl := "http://h/"
    fileExtensions := [".gif"]
    maxDepth := 0
    maxPages := 1
    stayOnDomain := true
    respectRobots := false
    maxConcurrent := 1
    downloadAllFiles := false
    contentPattern := none
    robotParser := none }

/-- The seed page embeds an image hosted on a foreign domain. -/
def cexC4world : World :=
  { pageResult := fun u =>
      if u = "http://h/" then
        Except.ok { text := "",
                    tags := [{ name := "img", href := none, src := some "http://e/x.gif" }] }
      else Except.ok { text := "", tags := [] }
    fileNet := fun _ => Except.ok ()
    fileOpen := fun _ => Except.ok ()
    fileRead := fun _ => Except.ok ()
    fileWrite := fun _ => Except.ok ()
    robotsRead := fun _ => Except.error PyErr.clientError }

def cexC4st1 : CrawlerState :=
  { visited := [], queued := ["http://h/"], downloadedFiles := [], savedPages := []
    toVisit := [], pagesCrawled := 0, fs := [], log := [Event.enq "http://h/"] }

def cexC4st2 : CrawlerState :=
  { cexC4st1 with
    visited := ["http://h/"]
    pagesCrawled := 1
    log := [Event.enq "http://h/", Event.fetchStart "http://h/" 0] }

def cexC4st3 : CrawlerState :=
  { visited := ["http://h/"]
    queued := ["http://h/"]
    downloadedFiles := ["http://e/x.gif"]
    savedPages := []
    toVisit := []
    pagesCrawled := 1
    fs := ["out/x.gif"]
    log := [Event.enq "http://h/", Event.fetchStart "http://h/" 0,
            Event.downloadAttempt "http://e/x.gif"] }

/-- Counterexample for C4 as stated: with the same-domain restriction enabled, the crawl
still issues a file-download network request to `http://e/x.gif`, whose host `e` differs
from the seed host `h` — `_download_file` performs no domain check. -/
theorem c4_counterexample :
    ∃ s : SysState, Reachable cexC4crawler cexC4world "out" s ∧
      cexC4crawler.stayOnDomain = true ∧
      "http://e/x.gif" ∈ downloadUrls s.st.log ∧
      (parseUrl "http://e/x.gif").netloc ≠ startDomain cexC4crawler := by
  refine ⟨⟨cexC4st3, [TaskState.done], Mode.waiting⟩, ?_, rfl, by decide, by decide⟩
  have h1 : Reachable cexC4crawler cexC4world "out"
      ⟨cexC4st1, [TaskState.created "http://h/" 0], Mode.waiting⟩ :=
    reachable_of_eq
      (Reachable.step Reachable.start
        (@Step.dispatch cexC4crawler cexC4world "out" (initState "http://h/") []
          (by decide)))
      (by decide)
  have h2 : Reachable cexC4crawler cexC4world "out"
      ⟨cexC4st2, [TaskState.inFlight "http://h/" 0], Mode.waiting⟩ :=
    Reachable.step h1
      (@Step.startValid cexC4crawler cexC4world "out" cexC4st1 cexC4st2 [] []
        "http://h/" 0 Mode.waiting (by decide) (by decide))
  exact reachable_of_eq
    (Reachable.step h2
      (@Step.complete cexC4crawler cexC4world "out" cexC4st2 [] []
        "http://h/" 0 Mode.waiting (by decide)))
    (by decide)
